import Mathlib

/-!
Verification of the velograph backend core against its specification.

This file is a shallow embedding of the relevant Python modules:

* `app/models/team.py`, `app/models/sponsor.py`, `app/models/edit.py`,
  `app/models/user.py` — the entity model (structures below);
* `app/services/lineage_service.py` — `LineageService.create_event`
  with its canonicalization pass;
* `app/services/edit_service.py` — `EditService.create_metadata_edit`,
  `_apply_metadata_changes`, `_apply_merge`, `_apply_split`;
* `app/services/moderation_service.py` — `ModerationService.review_edit`
  and `_apply_metadata_edit`;
* `app/services/sponsor_service.py` — `SponsorService.link_sponsor_to_era`;
* `app/services/team_service.py` — `TeamService.create_era`;
* `app/services/scraper_service.py` — `ScraperService.upsert_scraped_data`;
* `app/core/graph_builder.py` and `app/services/timeline_service.py` —
  the timeline projection and its process-wide cache;
* `app/core/etag.py` — the content hash for conditional reads.

Embedding conventions: UUIDs are modelled as `Nat` (freshly generated ids
become explicit parameters with freshness hypotheses); Python `str` is
modelled as `List Char` (`Str` below) so that the string manipulation in
the canonicalization pass stays structurally recursive; Python ints are
`Int`; SQLAlchemy sessions become explicit `DB` state threading, and a
commit of pending inserts appends to the corresponding table list.
Python's stable `sorted` is modelled by `List.insertionSort` over the
same key tuples (both are stable sorts, hence extensionally equal on
total preorders).  Exception messages are dropped; only the exception
kind is kept.
-/

/-- Python strings are modelled as lists of characters. -/
abbrev Str := List Char

/-- Modelled from the spec: `app/models/enums.py` is not part of the
provided sources; §3 fixes the event types as plain transfer, spiritual
succession, merge and split, and the services plus the migration
`003_add_lineage_event.py` use exactly the member names below. -/
inductive EventType where
  | LEGAL_TRANSFER
  | SPIRITUAL_SUCCESSION
  | MERGE
  | SPLIT
deriving DecidableEq, Repr

/-- `UserRole` from `app/models/user.py`. -/
inductive UserRole where
  | GUEST
  | NEW_USER
  | TRUSTED_USER
  | ADMIN
deriving DecidableEq, Repr

/-- `EditType` from `app/models/edit.py`. -/
inductive EditType where
  | METADATA
  | MERGE
  | SPLIT
  | DISSOLVE
deriving DecidableEq, Repr

/-- `EditStatus` from `app/models/edit.py`. -/
inductive EditStatus where
  | PENDING
  | APPROVED
  | REJECTED
deriving DecidableEq, Repr

/-- Exception kinds raised by the services (`app/core/exceptions.py`
plus plain `ValueError`); detail strings are dropped. -/
inductive Err where
  | validation
  | nodeNotFound
  | duplicateEra
  | valueError
deriving DecidableEq, Repr

/-- `TeamNode` from `app/models/team.py`. -/
structure TeamNode where
  node_id : Nat
  founding_year : Int
  dissolution_year : Option Int
deriving DecidableEq, Repr

/-- `TeamEra` from `app/models/team.py`. -/
structure TeamEra where
  era_id : Nat
  node_id : Nat
  season_year : Int
  registered_name : Str
  uci_code : Option Str
  tier_level : Option Int
  source_origin : Option Str
  is_manual_override : Bool
deriving DecidableEq, Repr

/-- `SponsorBrand` from `app/models/sponsor.py` (master linkage and
timestamps are irrelevant to the claims and omitted). -/
structure SponsorBrand where
  brand_id : Nat
  brand_name : Str
  default_hex_color : Str
deriving DecidableEq, Repr

/-- `TeamSponsorLink` from `app/models/sponsor.py`. -/
structure TeamSponsorLink where
  link_id : Nat
  era_id : Nat
  brand_id : Nat
  rank_order : Int
  prominence_percent : Int
deriving DecidableEq, Repr

/-- `LineageEvent` from `app/models/lineage.py`.  That file is not part
of the provided sources; the columns are fixed by the migration
`003_add_lineage_event.py` and by every service that constructs the
model (previous/next node id, event year, event type, notes). -/
structure LineageEvent where
  event_id : Nat
  previous_node_id : Option Nat
  next_node_id : Option Nat
  event_year : Int
  event_type : EventType
  notes : Option Str
deriving DecidableEq, Repr

/-- The JSON `changes` payload of an `Edit` record, one shape per edit
type (`EditService.create_metadata_edit` / `create_merge_edit` /
`create_split_edit` each store one of these dictionaries).  A field that
is absent from the dictionary is `none`. -/
inductive EditChanges where
  | metadata (registered_name : Option Str) (uci_code : Option Str)
      (tier_level : Option Int) (founding_year : Option Int)
      (dissolution_year : Option Int)
  | merge (source_node_ids : List Nat) (merge_year : Int)
      (new_team_name : Str) (new_team_tier : Int)
  | split (split_year : Int) (new_teams : List (Str × Int))
deriving DecidableEq, Repr

/-- `Edit` from `app/models/edit.py` (timestamps omitted). -/
structure Edit where
  edit_id : Nat
  user_id : Nat
  edit_type : EditType
  target_era_id : Option Nat
  target_node_id : Option Nat
  changes : EditChanges
  reason : Str
  status : EditStatus
  reviewed_by : Option Nat
  review_notes : Option Str
deriving DecidableEq, Repr

/-- `User` from `app/models/user.py` (auth fields omitted). -/
structure User where
  user_id : Nat
  role : UserRole
  approved_edits_count : Int
  is_banned : Bool
deriving DecidableEq, Repr

/-- The database state: one list per table, in storage order. -/
structure DB where
  nodes : List TeamNode
  eras : List TeamEra
  sponsor_links : List TeamSponsorLink
  brands : List SponsorBrand
  events : List LineageEvent
  edits : List Edit
  users : List User
deriving DecidableEq, Repr

/-! ### String helpers

`LineageService.create_event` manipulates the notes string with
`split("|")`, `strip()`, `startswith` and `in`; these are the
corresponding operations on `Str`. -/

/-- Python `s.split("|")`: split on the pipe character, keeping empty
segments. -/
def splitPipe : Str → List Str
  | [] => [[]]
  | c :: rest =>
    match splitPipe rest with
    | [] => if c = '|' then [[], []] else [[c]]
    | h :: t => if c = '|' then [] :: h :: t else (c :: h) :: t

/-- Python `s.strip()`: drop leading and trailing whitespace. -/
def stripWS (s : Str) : Str :=
  ((s.dropWhile Char.isWhitespace).reverse.dropWhile Char.isWhitespace).reverse

/-- Python `pat in s`: substring containment. -/
def containsSub : Str → Str → Bool
  | s, pat =>
    pat.isPrefixOf s ||
      match s with
      | [] => false
      | _ :: t => containsSub t pat

/-- Python truthiness of an optional string (`None` and `""` are falsy). -/
def truthyS : Option Str → Bool
  | none => false
  | some s => !s.isEmpty

/-- Python truthiness of an optional int (`None` and `0` are falsy). -/
def truthyI : Option Int → Bool
  | none => false
  | some i => i != 0

/-! ### LineageService (`app/services/lineage_service.py`) -/

/-- The marker dropped from a lone merge leg when it is downgraded. -/
def mergeLonePhrase : Str := "INCOMPLETE MERGE".data

/-- The marker cleared from a completed merge group. -/
def mergeGroupPhrase : Str := "INCOMPLETE MERGE: add another predecessor".data

/-- The marker dropped from a lone split leg when it is downgraded. -/
def splitLonePhrase : Str := "INCOMPLETE SPLIT".data

/-- The marker cleared from a completed split group. -/
def splitGroupPhrase : Str := "INCOMPLETE SPLIT: add another successor".data

/-- The notes rewrite shared by both canonicalization branches: when the
notes are non-empty and contain `phrase`, keep only the stripped
pipe-separated segments that are non-empty and satisfy `keep`, rejoined
with `" | "` (or `None` when nothing is left). -/
def stripNotes (phrase : Str) (keep : Str → Bool) (notes : Option Str) : Option Str :=
  match notes with
  | none => none
  | some s =>
    if !s.isEmpty && containsSub s phrase then
      let parts := ((splitPipe s).filter fun p =>
        !(stripWS p).isEmpty && keep (stripWS p)).map stripWS
      if parts.isEmpty then none else some (List.intercalate " | ".data parts)
    else some s

/-- Single-leg downgrade drops every segment that starts with the lone
marker (`not p.strip().startswith(...)` in the source). -/
def stripLone (phrase : Str) (notes : Option Str) : Option Str :=
  stripNotes phrase (fun p => !phrase.isPrefixOf p) notes

/-- The two-or-more branch drops every segment equal to the full
incomplete phrase (`p.strip() != incomplete_phrase` in the source). -/
def stripGroup (phrase : Str) (notes : Option Str) : Option Str :=
  stripNotes phrase (fun p => !(p == phrase)) notes

/-- `self.db.get(TeamNode, node_id)`. -/
def findNode (db : DB) (i : Nat) : Option TeamNode :=
  db.nodes.find? fun n => n.node_id == i

/-- Fetch an optional endpoint; a missing node raises
`ValidationException` ("Previous/Next node not found."). -/
def fetchOpt (db : DB) : Option Nat → Except Err (Option TeamNode)
  | none => .ok none
  | some i =>
    match findNode db i with
    | none => .error .validation
    | some n => .ok (some n)

/-- `year < previous_node.founding_year` (when a previous node is set). -/
def prevYearBad (n : Option TeamNode) (year : Int) : Bool :=
  match n with
  | some node => decide (year < node.founding_year)
  | none => false

/-- `next_node.dissolution_year and year > next_node.dissolution_year`
(Python truthiness: a dissolution year of `0` skips the check). -/
def nextYearBad (n : Option TeamNode) (year : Int) : Bool :=
  match n with
  | some node =>
    match node.dissolution_year with
    | some d => d != 0 && decide (year > d)
    | none => false
  | none => false

/-- The sibling query of the canonicalization pass for `MERGE`: all
events sharing the next node, the year and the `MERGE` type. -/
def mergeGroup (events : List LineageEvent) (next_id : Option Nat) (year : Int) :
    List LineageEvent :=
  events.filter fun e =>
    e.next_node_id == next_id && e.event_year == year && e.event_type == EventType.MERGE

/-- The sibling query of the canonicalization pass for `SPLIT`. -/
def splitGroup (events : List LineageEvent) (previous_id : Option Nat) (year : Int) :
    List LineageEvent :=
  events.filter fun e =>
    e.previous_node_id == previous_id && e.event_year == year && e.event_type == EventType.SPLIT

/-- The canonicalization pass run after the event is durably created
(`create_event`, lines 66-129): a single-leg `MERGE`/`SPLIT` group is
downgraded to `LEGAL_TRANSFER` with the lone marker stripped; a group of
two or more has the incomplete phrase cleared on every member. -/
def canonicalize (db1 : DB) (event : LineageEvent) : LineageEvent × DB :=
  match event.event_type with
  | .MERGE =>
    let related := mergeGroup db1.events event.next_node_id event.event_year
    if related.length = 1 then
      let event2 := {event with event_type := .LEGAL_TRANSFER,
                                notes := stripLone mergeLonePhrase event.notes}
      (event2, {db1 with events := db1.events.map fun e =>
        if e.event_id == event.event_id then event2 else e})
    else if 2 ≤ related.length then
      let upd := fun (e : LineageEvent) =>
        if e.next_node_id == event.next_node_id && e.event_year == event.event_year &&
            e.event_type == EventType.MERGE
        then {e with notes := stripGroup mergeGroupPhrase e.notes} else e
      ({event with notes := stripGroup mergeGroupPhrase event.notes},
       {db1 with events := db1.events.map upd})
    else (event, db1)
  | .SPLIT =>
    let related := splitGroup db1.events event.previous_node_id event.event_year
    if related.length = 1 then
      let event2 := {event with event_type := .LEGAL_TRANSFER,
                                notes := stripLone splitLonePhrase event.notes}
      (event2, {db1 with events := db1.events.map fun e =>
        if e.event_id == event.event_id then event2 else e})
    else if 2 ≤ related.length then
      let upd := fun (e : LineageEvent) =>
        if e.previous_node_id == event.previous_node_id && e.event_year == event.event_year &&
            e.event_type == EventType.SPLIT
        then {e with notes := stripGroup splitGroupPhrase e.notes} else e
      ({event with notes := stripGroup splitGroupPhrase event.notes},
       {db1 with events := db1.events.map upd})
    else (event, db1)
  | _ => (event, db1)

/-- `LineageService.create_event` (lines 16-130).  The freshly generated
event id is the explicit parameter `eid`.  The model-level
`event.validate()` call re-checks endpoint presence, the self-loop ban
and the year bounds (spec §3, `app/models/lineage.py` being absent from
the sources); each of those conditions is already excluded by the
service checks above it, so it raises nothing here. -/
def create_event (db : DB) (previous_id next_id : Option Nat) (year : Int)
    (etype : EventType) (notes : Option Str) (eid : Nat) :
    Except Err (LineageEvent × DB) :=
  if previous_id = none ∧ next_id = none then .error .validation else
  match fetchOpt db previous_id, fetchOpt db next_id with
  | .error e, _ => .error e
  | _, .error e => .error e
  | .ok previous_node, .ok next_node =>
    if prevYearBad previous_node year then .error .validation else
    if nextYearBad next_node year then .error .validation else
    if etype = .MERGE ∧ next_id = none then .error .validation else
    if etype = .SPLIT ∧ previous_id = none then .error .validation else
    if previous_id ≠ none ∧ previous_id = next_id then .error .validation else
    let event : LineageEvent :=
      { event_id := eid, previous_node_id := previous_id, next_node_id := next_id,
        event_year := year, event_type := etype, notes := notes }
    let db1 : DB := {db with events := db.events ++ [event]}
    .ok (canonicalize db1 event)

/-! ### Shared model validators (`@validates` in `app/models/team.py`,
`app/models/sponsor.py`)

SQLAlchemy runs these on every attribute assignment, so the embedding
funnels every write of the corresponding column through them.  The
`era.source_origin = f"user_{user.user_id}"` provenance string becomes
`userTag`. -/

/-- `f"user_{user.user_id}"`. -/
def userTag (uid : Nat) : Str :=
  "user_".data ++ (Nat.repr uid).data

/-- `TeamNode.validate_founding_year`: reject years before 1900. -/
def setFoundingYear (node : TeamNode) (y : Int) : Except Err TeamNode :=
  if y < 1900 then .error .valueError else .ok {node with founding_year := y}

/-- `TeamNode(founding_year=fy)` — the constructor runs the validator. -/
def mkNode (i : Nat) (fy : Int) : Except Err TeamNode :=
  if fy < 1900 then .error .valueError else .ok ⟨i, fy, none⟩

/-- `TeamEra.validate_registered_name`: strip, reject empty. -/
def setRegisteredName (era : TeamEra) (v : Str) : Except Err TeamEra :=
  if (stripWS v).isEmpty then .error .valueError
  else .ok {era with registered_name := stripWS v}

/-- `uci_code` well-formedness: exactly 3 uppercase letters (the ASCII
reading of `len == 3 and isalpha and isupper`). -/
def uciOk (s : Str) : Bool :=
  s.length = 3 && s.all Char.isAlpha && s.all Char.isUpper

/-- `TeamEra.validate_uci_code`. -/
def setUciCode (era : TeamEra) (v : Option Str) : Except Err TeamEra :=
  match v with
  | none => .ok {era with uci_code := none}
  | some s => if uciOk s then .ok {era with uci_code := some s} else .error .valueError

/-- `TeamEra.validate_tier_level`. -/
def setTierLevel (era : TeamEra) (v : Option Int) : Except Err TeamEra :=
  match v with
  | none => .ok {era with tier_level := none}
  | some t =>
    if t = 1 ∨ t = 2 ∨ t = 3 then .ok {era with tier_level := some t}
    else .error .valueError

/-- `TeamEra(...)` — the constructor runs the three validators above.
(The 1900–2100 season-year check constraint is database-side; every
embedded caller pre-validates the year, so it is not modelled.) -/
def mkEraChecked (i nid : Nat) (year : Int) (name : Str) (uci : Option Str)
    (tier : Option Int) (origin : Option Str) (manual : Bool) : Except Err TeamEra := do
  let era : TeamEra :=
    { era_id := i, node_id := nid, season_year := year, registered_name := [],
      uci_code := none, tier_level := none, source_origin := origin,
      is_manual_override := manual }
  let era ← setRegisteredName era name
  let era ← setUciCode era uci
  let era ← setTierLevel era tier
  .ok era

/-- `session.get(TeamEra, era_id)`. -/
def findEra (db : DB) (i : Nat) : Option TeamEra :=
  db.eras.find? fun e => e.era_id == i

/-- `session.get(User, user_id)`. -/
def findUser (db : DB) (i : Nat) : Option User :=
  db.users.find? fun u => u.user_id == i

/-- `session.get(Edit, edit_id)`. -/
def findEdit (db : DB) (i : Nat) : Option Edit :=
  db.edits.find? fun e => e.edit_id == i

/-! ### EditService (`app/services/edit_service.py`) -/

/-- `EditMetadataRequest` from `app/schemas/edits.py` (the `era_id`
UUID-parse failure is transport-level and omitted). -/
structure EditMetadataRequest where
  era_id : Nat
  registered_name : Option Str
  uci_code : Option Str
  tier_level : Option Int
  reason : Str

/-- `MergeEventRequest` from `app/schemas/edits.py`; its pydantic field
validators (2–5 sources, year range, name and reason lengths, tier set)
become the `MergeEventRequest.valid` hypothesis where a claim needs
them. -/
structure MergeEventRequest where
  source_node_ids : List Nat
  merge_year : Int
  new_team_name : Str
  new_team_tier : Int
  reason : Str

/-- The pydantic validators of `MergeEventRequest` (restricted to the
fields the claims depend on). -/
def MergeEventRequest.valid (r : MergeEventRequest) : Prop :=
  2 ≤ r.source_node_ids.length ∧ r.source_node_ids.length ≤ 5 ∧
    1900 ≤ r.merge_year ∧ (r.new_team_tier = 1 ∨ r.new_team_tier = 2 ∨ r.new_team_tier = 3) ∧
    ¬(stripWS r.new_team_name).isEmpty

/-- `SplitEventRequest` from `app/schemas/edits.py`. -/
structure SplitEventRequest where
  source_node_id : Nat
  split_year : Int
  new_teams : List (Str × Int)
  reason : Str

/-- `EditService._apply_metadata_changes`: era-level fields only, then
manual-override and provenance. -/
def apply_metadata_changes (era : TeamEra) (registered_name uci_code : Option Str)
    (tier_level : Option Int) (uid : Nat) : Except Err TeamEra := do
  let era ← match registered_name with
    | some v => setRegisteredName era v
    | none => .ok era
  let era ← match uci_code with
    | some v => setUciCode era (some v)
    | none => .ok era
  let era ← match tier_level with
    | some v => setTierLevel era (some v)
    | none => .ok era
  .ok {era with is_manual_override := true, source_origin := some (userTag uid)}

/-- `EditService.create_metadata_edit` (lines 17-80).  `eid` is the
freshly generated edit id. -/
def create_metadata_edit (db : DB) (user : User) (req : EditMetadataRequest) (eid : Nat) :
    Except Err (EditStatus × DB) :=
  match findEra db req.era_id with
  | none => .error .valueError
  | some era =>
    let changes_rn := if truthyS req.registered_name then req.registered_name else none
    let changes_uc := if truthyS req.uci_code then req.uci_code else none
    let changes_tl := if truthyI req.tier_level then req.tier_level else none
    if changes_rn = none ∧ changes_uc = none ∧ changes_tl = none then .error .valueError else
    let edit : Edit :=
      { edit_id := eid, user_id := user.user_id, edit_type := .METADATA,
        target_era_id := some req.era_id, target_node_id := none,
        changes := .metadata changes_rn changes_uc changes_tl none none,
        reason := req.reason, status := .PENDING, reviewed_by := none, review_notes := none }
    if user.role = .TRUSTED_USER ∨ user.role = .ADMIN then
      match apply_metadata_changes era changes_rn changes_uc changes_tl user.user_id with
      | .error e => .error e
      | .ok era2 =>
        let edit2 := {edit with status := .APPROVED, reviewed_by := some user.user_id}
        .ok (.APPROVED,
          { db with
            eras := db.eras.map fun e => if e.era_id == era.era_id then era2 else e,
            users := db.users.map fun u =>
              if u.user_id == user.user_id then
                {u with approved_edits_count := u.approved_edits_count + 1}
              else u,
            edits := db.edits ++ [edit2] })
    else
      .ok (.PENDING, {db with edits := db.edits ++ [edit]})

/-- `f"Merged into {request.new_team_name}"`. -/
def mergeNoteFor (name : Str) : Str := "Merged into ".data ++ name

/-- `f"Split from source team into {new_team_info.name}"`. -/
def splitNoteFor (name : Str) : Str := "Split from source team into ".data ++ name

/-- `EditService._apply_merge` (lines 185-227): dissolve every source
node at the merge year, insert one new node with a single era, and one
`MERGE` event per source node.  The fresh ids of the new node, its era
and the events are explicit parameters. -/
def apply_merge (db : DB) (req : MergeEventRequest) (uid : Nat)
    (new_node_id new_era_id : Nat) (event_ids : List Nat) : Except Err DB := do
  let new_node ← mkNode new_node_id req.merge_year
  let new_era ← mkEraChecked new_era_id new_node_id req.merge_year req.new_team_name
      none (some req.new_team_tier) (some (userTag uid)) true
  let dissolved := db.nodes.map fun n =>
    if req.source_node_ids.contains n.node_id
    then {n with dissolution_year := some req.merge_year} else n
  let evs := (req.source_node_ids.zip event_ids).map fun si =>
    { event_id := si.2, previous_node_id := some si.1, next_node_id := some new_node_id,
      event_year := req.merge_year, event_type := EventType.MERGE,
      notes := some (mergeNoteFor req.new_team_name) : LineageEvent }
  .ok { db with nodes := dissolved ++ [new_node], eras := db.eras ++ [new_era],
                events := db.events ++ evs }

/-- `any(era.season_year == year for era in node.eras)`. -/
def nodeActiveIn (db : DB) (nid : Nat) (year : Int) : Bool :=
  db.eras.any fun e => e.node_id == nid && e.season_year == year

/-- The source-validation loop of `EditService.create_merge_edit`:
each source node must exist and be active in the merge year. -/
def validateSources (db : DB) (year : Int) : List Nat → Except Err Unit
  | [] => .ok ()
  | sid :: rest =>
    match findNode db sid with
    | none => .error .valueError
    | some _ =>
      if nodeActiveIn db sid year then validateSources db year rest
      else .error .valueError

/-- `EditService.create_merge_edit` (lines 104-183). -/
def create_merge_edit (db : DB) (user : User) (req : MergeEventRequest) (eid : Nat)
    (new_node_id new_era_id : Nat) (event_ids : List Nat) :
    Except Err (EditStatus × DB) := do
  let _ ← validateSources db req.merge_year req.source_node_ids
  let edit : Edit :=
    { edit_id := eid, user_id := user.user_id, edit_type := .MERGE,
      target_era_id := none, target_node_id := none,
      changes := .merge req.source_node_ids req.merge_year req.new_team_name req.new_team_tier,
      reason := req.reason, status := .PENDING, reviewed_by := none, review_notes := none }
  if user.role = .TRUSTED_USER ∨ user.role = .ADMIN then do
    let db2 ← apply_merge db req user.user_id new_node_id new_era_id event_ids
    let edit2 := {edit with status := .APPROVED, reviewed_by := some user.user_id}
    .ok (.APPROVED,
      { db2 with
        users := db2.users.map fun u =>
          if u.user_id == user.user_id then
            {u with approved_edits_count := u.approved_edits_count + 1}
          else u,
        edits := db2.edits ++ [edit2] })
  else
    .ok (.PENDING, {db with edits := db.edits ++ [edit]})

/-- The per-target loop of `EditService._apply_split`: one new node, one
era and one `SPLIT` event per requested team, each with its fresh ids. -/
def splitPieces (uid src : Nat) (year : Int) :
    List ((Str × Int) × (Nat × Nat × Nat)) →
    Except Err (List TeamNode × List TeamEra × List LineageEvent)
  | [] => .ok ([], [], [])
  | (team, ids) :: rest => do
    let node ← mkNode ids.1 year
    let era ← mkEraChecked ids.2.1 ids.1 year team.1 none (some team.2)
        (some (userTag uid)) true
    let (ns, es, evs) ← splitPieces uid src year rest
    .ok (node :: ns, era :: es,
      ({ event_id := ids.2.2, previous_node_id := some src, next_node_id := some ids.1,
         event_year := year, event_type := EventType.SPLIT,
         notes := some (splitNoteFor team.1) } : LineageEvent) :: evs)

/-- `EditService._apply_split` (lines 308-359). -/
def apply_split (db : DB) (req : SplitEventRequest) (uid : Nat)
    (ids : List (Nat × Nat × Nat)) : Except Err DB :=
  match findNode db req.source_node_id with
  | none => .error .valueError
  | some _ => do
    let (ns, es, evs) ← splitPieces uid req.source_node_id req.split_year
        (req.new_teams.zip ids)
    .ok { db with
          nodes := (db.nodes.map fun n =>
            if n.node_id == req.source_node_id
            then {n with dissolution_year := some req.split_year} else n) ++ ns,
          eras := db.eras ++ es,
          events := db.events ++ evs }

/-- `EditService.create_split_edit` (lines 229-306): validate that the
source node exists and is active in the split year, store the edit, and
for trusted/admin submitters apply the split immediately and increment
the approval counter.  `ids` are the fresh (node, era, event) ids of
the pieces created on the auto-approve path. -/
def create_split_edit (db : DB) (user : User) (req : SplitEventRequest) (eid : Nat)
    (ids : List (Nat × Nat × Nat)) : Except Err (EditStatus × DB) :=
  match findNode db req.source_node_id with
  | none => .error .valueError
  | some _ =>
    if nodeActiveIn db req.source_node_id req.split_year then
      let edit : Edit :=
        { edit_id := eid, user_id := user.user_id, edit_type := .SPLIT,
          target_era_id := none, target_node_id := some req.source_node_id,
          changes := .split req.split_year req.new_teams,
          reason := req.reason, status := .PENDING, reviewed_by := none,
          review_notes := none }
      if user.role = .TRUSTED_USER ∨ user.role = .ADMIN then
        match apply_split db req user.user_id ids with
        | .error e => .error e
        | .ok db2 =>
          let edit2 := {edit with status := .APPROVED, reviewed_by := some user.user_id}
          .ok (.APPROVED,
            { db2 with
              users := db2.users.map fun u =>
                if u.user_id == user.user_id then
                  {u with approved_edits_count := u.approved_edits_count + 1}
                else u,
              edits := db2.edits ++ [edit2] })
      else
        .ok (.PENDING, {db with edits := db.edits ++ [edit]})
    else .error .valueError

/-! ### ModerationService (`app/services/moderation_service.py`) -/

/-- Key extraction from the stored JSON `changes` dictionary: the
membership tests `'registered_name' in changes` … `'dissolution_year'
in changes` all fail on a merge/split payload. -/
def metaFields : EditChanges →
    Option Str × Option Str × Option Int × Option Int × Option Int
  | .metadata rn uc tl fy dy => (rn, uc, tl, fy, dy)
  | _ => (none, none, none, none, none)

/-- `ModerationService._apply_metadata_edit` (lines 100-138): era-level
fields through the era validators, node-level `founding_year` through
the node validator, `dissolution_year` written directly (the model has
no validator for it), then manual-override and provenance pinning. -/
def apply_metadata_edit_mod (db : DB) (edit : Edit) : Except Err DB := do
  let era ← match edit.target_era_id.bind (findEra db) with
    | none => .error .valueError
    | some era => .ok era
  let node? ← match edit.target_node_id with
    | none => .ok none
    | some nid =>
      match findNode db nid with
      | none => .error .valueError
      | some n => .ok (some n)
  let (rn, uc, tl, fy, dy) := metaFields edit.changes
  let era ← match rn with
    | some v => setRegisteredName era v
    | none => .ok era
  let era ← match uc with
    | some v => setUciCode era (some v)
    | none => .ok era
  let era ← match tl with
    | some v => setTierLevel era (some v)
    | none => .ok era
  let node? ← match node? with
    | none => .ok none
    | some n => do
      let n ← match fy with
        | some y => setFoundingYear n y
        | none => .ok n
      let n := match dy with
        | some d => {n with dissolution_year := some d}
        | none => n
      .ok (some n)
  let era2 := {era with is_manual_override := true,
                        source_origin := some (userTag edit.user_id)}
  .ok { db with
        eras := db.eras.map fun e => if e.era_id == era2.era_id then era2 else e,
        nodes := match node? with
          | some n2 => db.nodes.map fun m => if m.node_id == n2.node_id then n2 else m
          | none => db.nodes }

/-- The pydantic field validators re-run when `_apply_split_edit`
rebuilds a `SplitEventRequest` from the stored changes: 2–5 new teams,
each with a tier in {1,2,3} and a stripped name of 3 to (raw) 200
characters, the split year at least 1900 (the "at most next year" upper
bound is wall-clock dependent and omitted, as for the merge request)
and a stripped reason of at least 10 characters.  A failing validator
raises into `review_edit`'s catch. -/
def splitChangesOk (split_year : Int) (new_teams : List (Str × Int)) (reason : Str) :
    Bool :=
  decide (2 ≤ new_teams.length) && decide (new_teams.length ≤ 5) &&
  new_teams.all (fun t => (t.2 == 1 || t.2 == 2 || t.2 == 3) &&
    decide (3 ≤ (stripWS t.1).length) && decide (t.1.length ≤ 200)) &&
  decide (1900 ≤ split_year) && decide (10 ≤ (stripWS reason).length)

/-- `ModerationService._apply_split_edit` (lines 155-170): rebuild the
`SplitEventRequest` from the stored changes (a missing key is a
`KeyError`, the validators re-run with names and reason stripped, a
`None` target node id fails the `UUID(str(...))` parse inside
`_apply_split`) and call `EditService._apply_split(session, request,
user)` — unlike the merge dispatch, this call has the right arity, so a
well-formed stored split edit really applies the split.  `ids` are the
fresh (node, era, event) ids of the created pieces. -/
def apply_split_edit_mod (db : DB) (edit : Edit) (ids : List (Nat × Nat × Nat)) :
    Except Err DB :=
  match edit.changes with
  | .split split_year new_teams =>
    if splitChangesOk split_year new_teams edit.reason then
      match edit.target_node_id with
      | none => .error .valueError
      | some nid =>
        apply_split db
          ⟨nid, split_year, new_teams.map (fun t => (stripWS t.1, t.2)),
           stripWS edit.reason⟩
          edit.user_id ids
    else .error .valueError
  | _ => .error .valueError

/-- `ModerationService.review_edit` (lines 51-98).  The merge dispatch
branch reconstructs the pydantic request and calls
`EditService._apply_merge` without the mandatory
`validated_source_nodes` argument, so `_apply_merge_edit` raises
`TypeError` unconditionally; `review_edit` catches it, rolls the
transaction back and re-raises `ValueError` — the embedding returns the
error with no state change.  The split dispatch
(`_apply_split_edit`) calls `_apply_split` with the correct arity and
succeeds on a well-formed stored split edit.  A `DISSOLVE` edit matches
no dispatch branch and is approved without any structural apply.
`split_ids` are the fresh ids consumed by a split apply. -/
def review_edit (db : DB) (edit_id : Nat) (admin : User) (approved : Bool)
    (notes : Option Str) (split_ids : List (Nat × Nat × Nat)) :
    Except Err (EditStatus × DB) :=
  match findEdit db edit_id with
  | none => .error .nodeNotFound
  | some edit =>
    if approved then
      let edit2 := {edit with status := .APPROVED, reviewed_by := some admin.user_id,
                              review_notes := notes}
      let applied : Except Err DB :=
        match edit.edit_type with
        | .METADATA => apply_metadata_edit_mod db edit
        | .MERGE => .error .valueError
        | .SPLIT => apply_split_edit_mod db edit split_ids
        | .DISSOLVE => .ok db
      match applied with
      | .error _ => .error .valueError
      | .ok db2 =>
        match findUser db2 edit.user_id with
        | none => .error .valueError
        | some user =>
          let count2 := user.approved_edits_count + 1
          let user2 :=
            if user.role = .NEW_USER ∧ 5 ≤ count2 then
              {user with approved_edits_count := count2, role := .TRUSTED_USER}
            else
              {user with approved_edits_count := count2}
          .ok (.APPROVED,
            { db2 with
              users := db2.users.map fun u => if u.user_id == user.user_id then user2 else u,
              edits := db2.edits.map fun e => if e.edit_id == edit_id then edit2 else e })
    else
      let edit2 := {edit with status := .REJECTED, reviewed_by := some admin.user_id,
                              review_notes := some (notes.getD "Edit rejected by moderator".data)}
      .ok (.REJECTED,
        {db with edits := db.edits.map fun e => if e.edit_id == edit_id then edit2 else e})

/-! ### SponsorService (`app/services/sponsor_service.py`) -/

/-- `session.get`-style brand lookup. -/
def findBrand (db : DB) (i : Nat) : Option SponsorBrand :=
  db.brands.find? fun b => b.brand_id == i

/-- `select(func.sum(prominence_percent)).where(era_id = ...)` with the
`or 0` default. -/
def eraProminenceTotal (db : DB) (era_id : Nat) : Int :=
  ((db.sponsor_links.filter fun l => l.era_id == era_id).map
    fun l => l.prominence_percent).sum

/-- `SponsorService.link_sponsor_to_era` (lines 111-200): era and brand
must exist, the (era, brand) pair and the rank must be free, and the new
prominence must not push the era total above 100; then the link-model
validators (`rank_order >= 1`, `0 < prominence <= 100`) run at
construction. -/
def link_sponsor_to_era (db : DB) (era_id brand_id : Nat) (rank_order : Int)
    (prominence_percent : Int) (link_id : Nat) : Except Err (TeamSponsorLink × DB) :=
  match findEra db era_id with
  | none => .error .nodeNotFound
  | some _ =>
    match findBrand db brand_id with
    | none => .error .nodeNotFound
    | some _ =>
      if db.sponsor_links.any (fun l => l.era_id == era_id && l.brand_id == brand_id) then
        .error .validation
      else if db.sponsor_links.any (fun l => l.era_id == era_id && l.rank_order == rank_order) then
        .error .validation
      else if 100 < eraProminenceTotal db era_id + prominence_percent then
        .error .validation
      else if rank_order < 1 then .error .valueError
      else if prominence_percent ≤ 0 ∨ 100 < prominence_percent then .error .valueError
      else
        let link : TeamSponsorLink :=
          { link_id := link_id, era_id := era_id, brand_id := brand_id,
            rank_order := rank_order, prominence_percent := prominence_percent }
        .ok (link, {db with sponsor_links := db.sponsor_links ++ [link]})

/-! ### TeamService (`app/services/team_service.py`) -/

/-- `TeamService.create_era` (lines 88-142): input validation before any
lookup, then node existence, then the duplicate (node, year) check, then
the insert (with the stripped name). -/
def create_era (db : DB) (node_id : Nat) (year : Int) (registered_name : Str)
    (uci_code : Option Str) (tier_level : Option Int) (source_origin : Option Str)
    (is_manual_override : Bool) (era_id : Nat) : Except Err (TeamEra × DB) :=
  if year < 1900 ∨ 2100 < year then .error .validation
  else if (match tier_level with
           | some t => !(t == 1 || t == 2 || t == 3)
           | none => false) then .error .validation
  else if (match uci_code with
           | some s => !uciOk s
           | none => false) then .error .validation
  else if (stripWS registered_name).isEmpty then .error .validation
  else
    match findNode db node_id with
    | none => .error .nodeNotFound
    | some _ =>
      if db.eras.any (fun e => e.node_id == node_id && e.season_year == year) then
        .error .duplicateEra
      else
        let era : TeamEra :=
          { era_id := era_id, node_id := node_id, season_year := year,
            registered_name := stripWS registered_name, uci_code := uci_code,
            tier_level := tier_level, source_origin := source_origin,
            is_manual_override := is_manual_override }
        .ok (era, {db with eras := db.eras ++ [era]})

/-! ### ScraperService (`app/services/scraper_service.py`) -/

/-- `ScrapedTeamData` from `app/scraper/models.py` (fields unused by the
upsert are omitted). -/
structure ScrapedTeamData where
  source : Str
  team_name : Str
  uci_code : Option Str
  tier : Option Str

/-- The `tier_map = {"WT": 1, "PT": 2, "CT": 3}` lookup. -/
def tierMap (t : Str) : Option Int :=
  if t = "WT".data then some 1
  else if t = "PT".data then some 2
  else if t = "CT".data then some 3
  else none

/-- `ScraperService.upsert_scraped_data` (lines 17-70): requires a team
name, then always inserts a fresh placeholder node (founded 2024) and a
fresh 2024 era built through the era-model validators; no existing row
is read or written. -/
def upsert_scraped_data (db : DB) (data : ScrapedTeamData) (node_id era_id : Nat) :
    Except Err (TeamEra × DB) := do
  if data.team_name.isEmpty then .error .valueError else
  let node ← mkNode node_id 2024
  let tier_level := data.tier.bind tierMap
  let era ← mkEraChecked era_id node_id 2024 data.team_name data.uci_code tier_level
      (some data.source) false
  .ok (era, {db with nodes := db.nodes ++ [node], eras := db.eras ++ [era]})

/-! ### GraphBuilder (`app/core/graph_builder.py`)

Python's `sorted` (a stable merge sort) is modelled by
`List.insertionSort` over the same key tuples: on a total preorder a
stable sort's output is uniquely determined, so the two are
extensionally equal.  UUID strings are compared lexicographically in the
source; under the `Nat` embedding of ids this becomes the `Nat` order
(any total order on ids gives the same determinism guarantees). -/

/-- A sponsor entry (`build_jersey_composition` dict). -/
structure SponsorOut where
  brand : Option Str
  color : Str
  prominence : Int
deriving DecidableEq, Repr

/-- An era entry of the projected graph (`build_nodes` inner dict). -/
structure EraOut where
  year : Int
  name : Str
  tier : Option Int
  sponsors : List SponsorOut
deriving DecidableEq, Repr

/-- A node of the projected graph (`build_nodes` dict, snake_case). -/
structure NodeOut where
  id : Nat
  founding_year : Int
  dissolution_year : Option Int
  eras : List EraOut
deriving DecidableEq, Repr

/-- A link of the projected graph (`build_links` dict); the `type` key
holds the enum member name string. -/
structure LinkOut where
  source : Nat
  target : Nat
  year : Int
  type_name : Str
deriving DecidableEq, Repr

/-- The `meta` block of the projection. -/
structure GraphMeta where
  year_range : Int × Int
  node_count : Nat
  link_count : Nat
deriving DecidableEq, Repr

/-- The full projection payload. -/
structure GraphData where
  nodes : List NodeOut
  links : List LinkOut
  meta : GraphMeta
deriving DecidableEq, Repr

/-! ### Sorting machinery for the deterministic ordering -/

/-- The ascending order induced by a sort key, as the source's
`sorted(..., key=...)` uses it. -/
def keyRel {α K : Type} (key : α → K) [LinearOrder K] : α → α → Prop :=
  fun a b => key a ≤ key b

instance {α K : Type} (key : α → K) [LinearOrder K] : DecidableRel (keyRel key) :=
  fun a b => inferInstanceAs (Decidable (key a ≤ key b))

instance {α K : Type} (key : α → K) [LinearOrder K] : IsTotal α (keyRel key) :=
  ⟨fun a b => le_total (key a) (key b)⟩

instance {α K : Type} (key : α → K) [LinearOrder K] : IsTrans α (keyRel key) :=
  ⟨fun _ _ _ h h2 => le_trans h h2⟩

/-- Python `sorted(l, key=key)`: a stable ascending sort by `key`. -/
def sortByKey {α K : Type} (key : α → K) [LinearOrder K] (l : List α) : List α :=
  List.insertionSort (keyRel key) l

/-- `ev.event_type.name`. -/
def eventTypeName : EventType → Str
  | .LEGAL_TRANSFER => "LEGAL_TRANSFER".data
  | .SPIRITUAL_SUCCESSION => "SPIRITUAL_SUCCESSION".data
  | .MERGE => "MERGE".data
  | .SPLIT => "SPLIT".data

/-- Sort key of the node list: `(founding_year, id)`. -/
def nodeKey (n : NodeOut) : Lex (Int × Nat) := toLex (n.founding_year, n.id)

/-- Sort key of a node's era list: `(year, name)`. -/
def eraKey (e : EraOut) : Lex (Int × Str) := toLex (e.year, e.name)

/-- Sort key of an era's sponsor links: `rank_order`. -/
def rankKey (l : TeamSponsorLink) : Int := l.rank_order

/-- Sort key of the link list: `(year, source, target, type)`. -/
def linkKey (l : LinkOut) : Lex (Int × Lex (Nat × Lex (Nat × Str))) :=
  toLex (l.year, toLex (l.source, toLex (l.target, l.type_name)))

/-! ### GraphBuilder proper -/

/-- The defensive hex check in `build_jersey_composition`: keep the
brand color only when it is a non-empty string of length 7 starting
with `#`; otherwise fall back to `#4A90E2`. -/
def colorOf (b : Option SponsorBrand) : Str :=
  match b with
  | none => "#4A90E2".data
  | some brand =>
    if !brand.default_hex_color.isEmpty &&
        ['#'].isPrefixOf brand.default_hex_color &&
        brand.default_hex_color.length = 7
    then brand.default_hex_color
    else "#4A90E2".data

/-- `GraphBuilder.build_jersey_composition`: the era's links sorted by
rank, each rendered with its brand name and (checked) color. -/
def build_jersey_composition (db : DB) (era : TeamEra) : List SponsorOut :=
  (sortByKey rankKey (db.sponsor_links.filter fun l => l.era_id == era.era_id)).map
    fun l =>
      let b := findBrand db l.brand_id
      { brand := b.map (fun x => x.brand_name), color := colorOf b,
        prominence := l.prominence_percent }

/-- The era filter applied in `get_graph_data` (year window and tier
filter; a `None` tier never matches a present filter, as in Python
`None in [..]`). -/
def eraPred (start_year end_year : Int) (tier_filter : Option (List Int))
    (e : TeamEra) : Bool :=
  decide (start_year ≤ e.season_year) && decide (e.season_year ≤ end_year) &&
    (match tier_filter with
     | none => true
     | some tf =>
       match e.tier_level with
       | some t => tf.contains t
       | none => false)

/-- The dissolved filter of `get_graph_data`: when `include_dissolved`
is false, keep only nodes with no dissolution year or one after the
requested end year. -/
def dissolvedPred (include_dissolved : Bool) (end_year : Int) (n : TeamNode) : Bool :=
  include_dissolved ||
    (match n.dissolution_year with
     | none => true
     | some d => decide (end_year < d))

/-- One era entry of `build_nodes`. -/
def buildEraOut (db : DB) (e : TeamEra) : EraOut :=
  { year := e.season_year, name := e.registered_name, tier := e.tier_level,
    sponsors := build_jersey_composition db e }

/-- One node entry of `build_nodes`, fed the eras that survived the
filter in `get_graph_data`, sorted by `(year, name)`. -/
def build_node (db : DB) (start_year end_year : Int) (tier_filter : Option (List Int))
    (n : TeamNode) : NodeOut :=
  { id := n.node_id, founding_year := n.founding_year,
    dissolution_year := n.dissolution_year,
    eras := sortByKey eraKey
      (((db.eras.filter fun e => e.node_id == n.node_id).filter
        (eraPred start_year end_year tier_filter)).map (buildEraOut db)) }

/-- `GraphBuilder.build_nodes`: map over the fetched teams, then the
deterministic `(founding_year, id)` sort. -/
def build_nodes (db : DB) (start_year end_year : Int) (tier_filter : Option (List Int))
    (teams : List TeamNode) : List NodeOut :=
  sortByKey nodeKey (teams.map (build_node db start_year end_year tier_filter))

/-- `GraphBuilder.build_links`: only events with both endpoints, sorted
by `(year, source, target, type)`. -/
def build_links (events : List LineageEvent) : List LinkOut :=
  sortByKey linkKey
    ((events.filter fun e => e.previous_node_id.isSome && e.next_node_id.isSome).map
      fun e =>
        { source := e.previous_node_id.getD 0, target := e.next_node_id.getD 0,
          year := e.event_year, type_name := eventTypeName e.event_type })

/-- The cache-free heart of `TimelineService.get_graph_data`: fetch
nodes (dissolved filter), filter each node's eras, fetch the events in
the year window, and build the payload with its meta block. -/
def projectGraph (db : DB) (start_year end_year : Int) (include_dissolved : Bool)
    (tier_filter : Option (List Int)) : GraphData :=
  let teams := db.nodes.filter (dissolvedPred include_dissolved end_year)
  let events := db.events.filter fun e =>
    decide (start_year ≤ e.event_year) && decide (e.event_year ≤ end_year)
  let nodes := build_nodes db start_year end_year tier_filter teams
  let links := build_links events
  { nodes := nodes, links := links,
    meta := { year_range := (start_year, end_year), node_count := nodes.length,
              link_count := links.length } }

/-! ### TimelineService cache (`app/services/timeline_service.py`) and
the content hash (`app/core/etag.py`) -/

/-- The cache key built from the query parameters.  The source collapses
a missing and an empty tier filter into the same `"tiers:"` segment
(Python truthiness), hence `tiers := tier_filter.getD []`; the rest of
the key string is injective in the remaining parameters. -/
structure CacheKey where
  start_year : Int
  end_year : Int
  include_dissolved : Bool
  tiers : List Int
deriving DecidableEq, Repr

/-- The process-wide `TimelineService._cache` dictionary: entries of
`key -> (expires_at, value)`; a fresh entry shadows an older one. -/
abbrev Cache := List (CacheKey × Int × GraphData)

/-- The relevant `settings` of `app/core/config.py`. -/
structure Config where
  TIMELINE_CACHE_ENABLED : Bool
  TIMELINE_CACHE_TTL_SECONDS : Int

/-- The database together with the process-wide cache. -/
structure Sys where
  db : DB
  cache : Cache

/-- `TimelineService.invalidate_cache`. -/
def invalidate_cache (sys : Sys) : Sys := {sys with cache := []}

/-- `TimelineService.get_graph_data` (lines 21-88): serve a fresh cached
entry when caching is enabled, otherwise rebuild and (when enabled)
re-cache with `now + ttl` as expiry. -/
def get_graph_data (cfg : Config) (sys : Sys) (now : Int) (start_year end_year : Int)
    (include_dissolved : Bool) (tier_filter : Option (List Int)) : GraphData × Sys :=
  let key : CacheKey := ⟨start_year, end_year, include_dissolved, tier_filter.getD []⟩
  let hit : Option GraphData :=
    if cfg.TIMELINE_CACHE_ENABLED then
      match sys.cache.find? (fun kv => kv.1 == key) with
      | some kv => if now < kv.2.1 then some kv.2.2 else none
      | none => none
    else none
  match hit with
  | some g => (g, sys)
  | none =>
    let g := projectGraph sys.db start_year end_year include_dissolved tier_filter
    if cfg.TIMELINE_CACHE_ENABLED then
      (g, {sys with cache := (key, now + cfg.TIMELINE_CACHE_TTL_SECONDS, g) :: sys.cache})
    else (g, sys)

/-! Canonical serialization for the content hash.  `compute_etag` in the
source SHA-256-hashes the canonical JSON dump of the payload; the
digest step is abstracted away (an injective stand-in: the canonical
serialization itself), since every claim uses only that equal payloads
give equal hashes.  Braces of the JSON text are rendered as brackets. -/

/-- Serialize an `Int`. -/
def serInt (i : Int) : Str := (toString i).data

/-- Serialize a list with a serializer per element. -/
def serList {α : Type} (f : α → Str) (l : List α) : Str :=
  ['['] ++ List.intercalate ",".data (l.map f) ++ [']']

/-- Serialize an optional `Int`. -/
def serOptInt : Option Int → Str
  | none => "null".data
  | some i => serInt i

/-- Serialize a string value. -/
def serStr (s : Str) : Str := '"' :: s ++ ['"']

/-- Serialize an optional string. -/
def serOptStr : Option Str → Str
  | none => "null".data
  | some s => serStr s

/-- Serialize a sponsor entry (keys in sorted order: brand, color,
prominence). -/
def serSponsor (s : SponsorOut) : Str :=
  ['['] ++ serOptStr s.brand ++ [','] ++ serStr s.color ++ [','] ++
    serInt s.prominence ++ [']']

/-- Serialize an era entry (keys: name, sponsors, tier, year). -/
def serEra (e : EraOut) : Str :=
  ['['] ++ serStr e.name ++ [','] ++ serList serSponsor e.sponsors ++ [','] ++
    serOptInt e.tier ++ [','] ++ serInt e.year ++ [']']

/-- Serialize a node entry. -/
def serNode (n : NodeOut) : Str :=
  ['['] ++ serOptInt n.dissolution_year ++ [','] ++ serList serEra n.eras ++ [','] ++
    serInt n.founding_year ++ [','] ++ serInt n.id ++ [']']

/-- Serialize a link entry. -/
def serLink (l : LinkOut) : Str :=
  ['['] ++ serInt l.source ++ [','] ++ serInt l.target ++ [','] ++
    serStr l.type_name ++ [','] ++ serInt l.year ++ [']']

/-- `compute_etag` (`app/core/etag.py`): the weak-ETag wrapper around the
canonical dump (digest abstracted, see above). -/
def compute_etag (g : GraphData) : Str :=
  "W/".data ++ serList serLink g.links ++
    ['['] ++ serInt g.meta.year_range.1 ++ [','] ++ serInt g.meta.year_range.2 ++ [','] ++
    (toString g.meta.node_count).data ++ [','] ++ (toString g.meta.link_count).data ++ [']'] ++
    serList serNode g.nodes

/-! ### Cache-threading wrappers

`TimelineService.invalidate_cache()` is called after a successful
commit by `TeamService.create_era`, `SponsorService.link_sponsor_to_era`
and `LineageService.create_event` — and by nothing in `EditService` or
`ModerationService`. -/

/-- `create_era` with its cache effect. -/
def create_era_sys (sys : Sys) (node_id : Nat) (year : Int) (registered_name : Str)
    (uci_code : Option Str) (tier_level : Option Int) (source_origin : Option Str)
    (is_manual_override : Bool) (era_id : Nat) : Except Err (TeamEra × Sys) :=
  match create_era sys.db node_id year registered_name uci_code tier_level
      source_origin is_manual_override era_id with
  | .error e => .error e
  | .ok (era, db2) => .ok (era, ⟨db2, []⟩)

/-- `link_sponsor_to_era` with its cache effect. -/
def link_sponsor_to_era_sys (sys : Sys) (era_id brand_id : Nat) (rank_order : Int)
    (prominence_percent : Int) (link_id : Nat) : Except Err (TeamSponsorLink × Sys) :=
  match link_sponsor_to_era sys.db era_id brand_id rank_order prominence_percent link_id with
  | .error e => .error e
  | .ok (link, db2) => .ok (link, ⟨db2, []⟩)

/-- `create_event` with its cache effect. -/
def create_event_sys (sys : Sys) (previous_id next_id : Option Nat) (year : Int)
    (etype : EventType) (notes : Option Str) (eid : Nat) :
    Except Err (LineageEvent × Sys) :=
  match create_event sys.db previous_id next_id year etype notes eid with
  | .error e => .error e
  | .ok (ev, db2) => .ok (ev, ⟨db2, []⟩)

/-- `create_metadata_edit` leaves the cache untouched (no invalidation
call anywhere in `EditService`). -/
def create_metadata_edit_sys (sys : Sys) (user : User) (req : EditMetadataRequest)
    (eid : Nat) : Except Err (EditStatus × Sys) :=
  match create_metadata_edit sys.db user req eid with
  | .error e => .error e
  | .ok (st, db2) => .ok (st, ⟨db2, sys.cache⟩)

/-- `create_merge_edit` leaves the cache untouched. -/
def create_merge_edit_sys (sys : Sys) (user : User) (req : MergeEventRequest) (eid : Nat)
    (new_node_id new_era_id : Nat) (event_ids : List Nat) :
    Except Err (EditStatus × Sys) :=
  match create_merge_edit sys.db user req eid new_node_id new_era_id event_ids with
  | .error e => .error e
  | .ok (st, db2) => .ok (st, ⟨db2, sys.cache⟩)

/-- `create_split_edit` leaves the cache untouched. -/
def create_split_edit_sys (sys : Sys) (user : User) (req : SplitEventRequest) (eid : Nat)
    (ids : List (Nat × Nat × Nat)) : Except Err (EditStatus × Sys) :=
  match create_split_edit sys.db user req eid ids with
  | .error e => .error e
  | .ok (st, db2) => .ok (st, ⟨db2, sys.cache⟩)

/-- `review_edit` leaves the cache untouched (no invalidation call
anywhere in `ModerationService`), also when a split approval really
applies the split. -/
def review_edit_sys (sys : Sys) (edit_id : Nat) (admin : User) (approved : Bool)
    (notes : Option Str) (split_ids : List (Nat × Nat × Nat)) :
    Except Err (EditStatus × Sys) :=
  match review_edit sys.db edit_id admin approved notes split_ids with
  | .error e => .error e
  | .ok (st, db2) => .ok (st, ⟨db2, sys.cache⟩)

/-! ### Concrete scenarios for the refuted claims -/

/-- Discriminator for `Except` results. -/
def isOkE {α : Type} : Except Err α → Bool
  | .ok _ => true
  | .error _ => false

/-- Cache-enabled settings (`TIMELINE_CACHE_ENABLED = True`, default
TTL 300). -/
def cfgOn : Config := ⟨true, 300⟩

/-- C1 scenario: a trusted user. -/
def c1User : User := ⟨7, .TRUSTED_USER, 0, false⟩

/-- C1 scenario: one node with one era inside the queried window. -/
def c1Db : DB :=
  ⟨[⟨1, 2000, none⟩], [⟨10, 1, 2005, "Alpha".data, none, some 1, none, false⟩],
   [], [], [], [], [c1User]⟩

/-- C1 scenario: the first projection call at time 0 (fills the cache). -/
def c1Call1 : GraphData × Sys := get_graph_data cfgOn ⟨c1Db, []⟩ 0 2000 2010 true none

/-- C1 scenario: the metadata edit renaming the era. -/
def c1Req : EditMetadataRequest := ⟨10, some "Beta".data, none, none, "rename for testing".data⟩

/-- C1 scenario: the state after the trusted user's auto-approved edit. -/
def c1Sys2 : Sys :=
  match create_metadata_edit_sys c1Call1.2 c1User c1Req 500 with
  | .ok (_, s) => s
  | .error _ => ⟨c1Db, []⟩

/-- C1 scenario: the second projection call, 10 seconds later. -/
def c1Call2 : GraphData × Sys := get_graph_data cfgOn c1Sys2 10 2000 2010 true none

/-- C1 is refuted on the code: the trusted user's metadata edit succeeds
(auto-approved) yet leaves the timeline cache untouched, so the second
`get_graph_data` call with identical arguments returns the stale cached
payload even though the fresh projection of the mutated data differs
from it. -/
theorem C1_counterexample :
    isOkE (create_metadata_edit_sys c1Call1.2 c1User c1Req 500) = true ∧
    c1Sys2.cache = c1Call1.2.cache ∧ c1Sys2.cache ≠ [] ∧
    c1Call2.1 = c1Call1.1 ∧
    projectGraph c1Sys2.db 2000 2010 true none ≠ c1Call1.1 := by decide

/-- C2 scenario: two source nodes and the shared next node. -/
def c2Db : DB := ⟨[⟨1, 2010, none⟩, ⟨2, 2010, none⟩, ⟨3, 2020, none⟩], [], [], [], [], [], []⟩

/-- C2 scenario: leg A then leg B through `create_event`. -/
def c2AfterAB : DB :=
  match create_event c2Db (some 1) (some 3) 2021 .MERGE (some "Merge part 1".data) 101 with
  | .ok (_, db1) =>
    match create_event db1 (some 2) (some 3) 2021 .MERGE (some "Merge part 2".data) 102 with
    | .ok (_, db2) => db2
    | .error _ => db1
  | .error _ => c2Db

/-- C2 scenario: leg B then leg A. -/
def c2AfterBA : DB :=
  match create_event c2Db (some 2) (some 3) 2021 .MERGE (some "Merge part 2".data) 102 with
  | .ok (_, db1) =>
    match create_event db1 (some 1) (some 3) 2021 .MERGE (some "Merge part 1".data) 101 with
    | .ok (_, db2) => db2
    | .error _ => db1
  | .error _ => c2Db

/-- C2 is refuted on the code: after submitting two merge legs with the
same year (2021) and next node (3) in either order, the final state
holds two events of that (year, next) group and neither carries the
`MERGE` type — each leg was individually downgraded to `LEGAL_TRANSFER`
because the earlier leg had already been retyped when the later leg's
canonicalization query ran. -/
theorem C2_counterexample :
    c2AfterAB.events.map (fun e => (e.event_year, e.next_node_id)) =
      [(2021, some 3), (2021, some 3)] ∧
    c2AfterAB.events.map (fun e => e.event_type) = [.LEGAL_TRANSFER, .LEGAL_TRANSFER] ∧
    c2AfterBA.events.map (fun e => e.event_type) = [.LEGAL_TRANSFER, .LEGAL_TRANSFER] ∧
    c2AfterAB.events.all (fun e => e.event_type != .MERGE) = true := by decide

/-- C4 scenario: a single node whose only era (1950) lies outside the
queried window [2000, 2010]. -/
def c4Db : DB :=
  ⟨[⟨1, 1950, none⟩], [⟨10, 1, 1950, "Old Team".data, none, some 1, none, false⟩],
   [], [], [], [], []⟩

/-- C4 is refuted on the code: the node has no era satisfying the year
window, yet it appears in the projected node list (with an empty era
list) — `get_graph_data` never filters out nodes without matching
eras. -/
theorem C4_counterexample :
    (projectGraph c4Db 2000 2010 true none).nodes =
      [{ id := 1, founding_year := 1950, dissolution_year := none, eras := [] }] ∧
    c4Db.eras.all (fun e => !eraPred 2000 2010 none e) = true := by decide

/-- C8 scenario: a pending metadata edit carrying a dissolution year
(1950) below the target node's founding year (2000). -/
def c8Edit : Edit :=
  ⟨78, 7, .METADATA, some 10, some 1, .metadata none none none none (some 1950),
   "fix the record".data, .PENDING, none, none⟩

/-- C8 scenario: the admin and the submitting user. -/
def c8Admin : User := ⟨9, .ADMIN, 50, false⟩

/-- C8 scenario database. -/
def c8Db : DB :=
  ⟨[⟨1, 2000, none⟩], [⟨10, 1, 2005, "Alpha".data, none, some 1, none, false⟩],
   [], [], [], [c8Edit], [⟨7, .NEW_USER, 0, false⟩, c8Admin]⟩

/-- C8 scenario: the review that approves the edit. -/
def c8Result : Except Err (EditStatus × DB) := review_edit c8Db 78 c8Admin true none []

/-- C8 is refuted on the code: approving a metadata edit that carries
`dissolution_year = 1950` against a node founded in 2000 succeeds and
writes the violating year — no path compares the dissolution year with
the founding year before writing. -/
theorem C8_counterexample :
    isOkE c8Result = true ∧
    (match c8Result with
      | .ok (_, db2) => db2.nodes.map fun n => (n.founding_year, n.dissolution_year)
      | .error _ => []) = [((2000 : Int), some (1950 : Int))] ∧
    (1950 : Int) < 2000 := by decide

/-! ### C7: sponsor prominence -/

/-- C7: for every era the prominence sum never exceeds 100.  With the
era and the brand present, a `link_sponsor_to_era` call whose requested
prominence added to the era's current total would exceed 100 returns a
validation error (and hence writes nothing), and every successful call
preserves the global bound `eraProminenceTotal ≤ 100`. -/
theorem C7_prominence_invariant (db : DB) (era_id brand_id : Nat)
    (rank_order prominence_percent : Int) (link_id : Nat)
    (hera : (findEra db era_id).isSome = true)
    (hbrand : (findBrand db brand_id).isSome = true) :
    (100 < eraProminenceTotal db era_id + prominence_percent →
      link_sponsor_to_era db era_id brand_id rank_order prominence_percent link_id =
        .error .validation) ∧
    (∀ link db2,
      link_sponsor_to_era db era_id brand_id rank_order prominence_percent link_id =
        .ok (link, db2) →
      (∀ e, eraProminenceTotal db e ≤ 100) → ∀ e, eraProminenceTotal db2 e ≤ 100) := by
  obtain ⟨era, hera⟩ := Option.isSome_iff_exists.mp hera
  obtain ⟨brand, hbrand⟩ := Option.isSome_iff_exists.mp hbrand
  constructor
  · intro hover
    simp only [link_sponsor_to_era, hera, hbrand]
    split_ifs with h1 h2 <;> rfl
  · intro link db2 hok hpre e
    simp only [link_sponsor_to_era, hera, hbrand] at hok
    split_ifs at hok with h1 h2 h3 h4 h5
    rw [Except.ok.injEq, Prod.mk.injEq] at hok
    obtain ⟨hlink, hdb⟩ := hok
    rw [← hdb]
    simp only [eraProminenceTotal, List.filter_append, List.map_append, List.sum_append]
    simp only [eraProminenceTotal] at h3
    have hp := hpre e
    simp only [eraProminenceTotal] at hp
    by_cases hsame : era_id = e
    · subst hsame
      simp only [List.filter, beq_self_eq_true, List.map, List.sum_cons, List.sum_nil]
      omega
    · have : ((era_id : Nat) == e) = false := by
        simp [hsame]
      simp only [List.filter, this, List.map, List.sum_nil]
      omega

/-! ### C10: scraper upsert never touches existing eras -/

/-- Success of `mkEraChecked` pins the id and node fields. -/
theorem mkEraChecked_ids {i nid : Nat} {year : Int} {name : Str} {uci : Option Str}
    {tier : Option Int} {origin : Option Str} {manual : Bool} {e : TeamEra}
    (h : mkEraChecked i nid year name uci tier origin manual = .ok e) :
    e.era_id = i ∧ e.node_id = nid := by
  cases uci <;> cases tier <;>
    simp only [mkEraChecked, bind, Except.bind, setRegisteredName, setUciCode,
      setTierLevel] at h <;>
    (try split_ifs at h) <;>
    (try cases h) <;>
    exact ⟨rfl, rfl⟩

/-- C10: the scraper ingestion upsert leaves every pre-existing era
record untouched: a successful `upsert_scraped_data` only appends a
fresh node and a fresh era, so every era with the manual-override flag
set before the call is still present, field for field, and (with a
fresh era id) any lookup of its id yields the same record as before. -/
theorem C10_scraper_preserves_overrides (db : DB) (data : ScrapedTeamData)
    (node_id era_id : Nat) (era2 : TeamEra) (db2 : DB)
    (hok : upsert_scraped_data db data node_id era_id = .ok (era2, db2))
    (hfresh : ∀ e ∈ db.eras, e.era_id ≠ era_id) :
    db2.eras = db.eras ++ [era2] ∧
    ∀ e ∈ db.eras, e.is_manual_override = true →
      e ∈ db2.eras ∧ findEra db2 e.era_id = findEra db e.era_id := by
  simp only [upsert_scraped_data, mkNode, bind, Except.bind] at hok
  split_ifs at hok
  cases hE : mkEraChecked era_id node_id 2024 data.team_name data.uci_code
      (data.tier.bind tierMap) (some data.source) false with
  | error err => rw [hE] at hok; cases hok
  | ok era3 =>
    rw [hE] at hok
    rw [Except.ok.injEq, Prod.mk.injEq] at hok
    obtain ⟨hera, hdb⟩ := hok
    subst hera
    have hids := mkEraChecked_ids hE
    constructor
    · rw [← hdb]
    · intro e he hover
      constructor
      · rw [← hdb]
        simp only [List.mem_append]
        exact Or.inl he
      · rw [← hdb]
        simp only [findEra, List.find?_append]
        cases hfind : db.eras.find? (fun x => x.era_id == e.era_id) with
        | some x => simp
        | none =>
          simp only [Option.or]
          simp [List.find?_cons, hids.1, (hfresh e he).symm]

/-! ### C5: moderation gating of metadata edits -/

/-- The era value produced by a successful `_apply_metadata_changes`:
requested fields written (name stripped), manual-override set, and the
provenance pinned to the acting user. -/
def applyMetaResult (era : TeamEra) (rn uc : Option Str) (tl : Option Int) (uid : Nat) :
    TeamEra :=
  { era with
    registered_name := match rn with | some v => stripWS v | none => era.registered_name,
    uci_code := match uc with | some v => some v | none => era.uci_code,
    tier_level := match tl with | some t => some t | none => era.tier_level,
    is_manual_override := true,
    source_origin := some (userTag uid) }

/-- `_apply_metadata_changes` succeeds with `applyMetaResult` whenever
the requested values pass the era validators. -/
theorem apply_metadata_changes_eq (era : TeamEra) (rn uc : Option Str) (tl : Option Int)
    (uid : Nat)
    (hrn : ∀ v, rn = some v → (stripWS v).isEmpty = false)
    (huc : ∀ v, uc = some v → uciOk v = true)
    (htl : ∀ t, tl = some t → t = 1 ∨ t = 2 ∨ t = 3) :
    apply_metadata_changes era rn uc tl uid = .ok (applyMetaResult era rn uc tl uid) := by
  cases rn <;> cases uc <;> cases tl <;>
    simp only [apply_metadata_changes, applyMetaResult, bind, Except.bind,
      setRegisteredName, setUciCode, setTierLevel] <;>
    (try split_ifs) <;>
    simp_all

/-- Updating the (first-match) keyed record of a list makes the first
match of the same key the updated value. -/
theorem find?_update_key {α : Type} (key : α → Nat) (k : Nat) (x : α) (hx : key x = k) :
    ∀ l : List α, (l.find? fun e => key e == k).isSome = true →
      ((l.map fun e => if key e == k then x else e).find? fun e => key e == k) = some x := by
  intro l
  induction l with
  | nil => simp
  | cons a t ih =>
    intro hfound
    by_cases h : key a = k
    · simp [List.find?_cons, h, hx]
    · have hb : (key a == k) = false := by simp [h]
      simp only [List.map_cons, hb, if_neg, Bool.false_eq_true, ite_false]
      rw [List.find?_cons_of_neg _ (by simp [h]), ih]
      rw [List.find?_cons_of_neg _ (by simp [h])] at hfound
      exact hfound

/-- The database state after a `new`-role actor's metadata edit: only
the pending `Edit` record is appended. -/
def pendingMetaDb (db : DB) (user : User) (req : EditMetadataRequest) (eid : Nat) : DB :=
  { db with edits := db.edits ++
      [{ edit_id := eid, user_id := user.user_id, edit_type := .METADATA,
         target_era_id := some req.era_id, target_node_id := none,
         changes := .metadata (if truthyS req.registered_name then req.registered_name else none)
           (if truthyS req.uci_code then req.uci_code else none)
           (if truthyI req.tier_level then req.tier_level else none) none none,
         reason := req.reason, status := .PENDING, reviewed_by := none,
         review_notes := none }] }

/-- The database state after a trusted actor's auto-approved metadata
edit: era updated, approval counter incremented, approved `Edit`
appended. -/
def approvedMetaDb (db : DB) (user : User) (req : EditMetadataRequest) (eid : Nat)
    (era : TeamEra) : DB :=
  let era2 := applyMetaResult era
    (if truthyS req.registered_name then req.registered_name else none)
    (if truthyS req.uci_code then req.uci_code else none)
    (if truthyI req.tier_level then req.tier_level else none) user.user_id
  { db with
    eras := db.eras.map fun e => if e.era_id == era.era_id then era2 else e,
    users := db.users.map fun u =>
      if u.user_id == user.user_id then
        {u with approved_edits_count := u.approved_edits_count + 1}
      else u,
    edits := db.edits ++
      [{ edit_id := eid, user_id := user.user_id, edit_type := .METADATA,
         target_era_id := some req.era_id, target_node_id := none,
         changes := .metadata (if truthyS req.registered_name then req.registered_name else none)
           (if truthyS req.uci_code then req.uci_code else none)
           (if truthyI req.tier_level then req.tier_level else none) none none,
         reason := req.reason, status := .APPROVED, reviewed_by := some user.user_id,
         review_notes := none }] }

/-- C5: a non-banned `new`-role actor's metadata edit is stored
`PENDING` with the era table untouched; the same request by a `trusted`
(or `admin`) actor is stored `APPROVED` and the target era is updated
with the requested fields, with manual-override set and the provenance
pinned to the acting user. -/
theorem C5_moderation_gating (db : DB) (user : User) (req : EditMetadataRequest)
    (eid : Nat) (era : TeamEra)
    (hera : findEra db req.era_id = some era)
    (hban : user.is_banned = false)
    (hch : truthyS req.registered_name = true ∨ truthyS req.uci_code = true ∨
      truthyI req.tier_level = true)
    (hrn : ∀ v, req.registered_name = some v → v ≠ [] → (stripWS v).isEmpty = false)
    (huc : ∀ v, req.uci_code = some v → v ≠ [] → uciOk v = true)
    (htl : ∀ t, req.tier_level = some t → t ≠ 0 → t = 1 ∨ t = 2 ∨ t = 3) :
    (user.role = .NEW_USER →
      ∃ db2, create_metadata_edit db user req eid = .ok (.PENDING, db2) ∧
        db2.eras = db.eras) ∧
    ((user.role = .TRUSTED_USER ∨ user.role = .ADMIN) →
      ∃ db2 era2, create_metadata_edit db user req eid = .ok (.APPROVED, db2) ∧
        findEra db2 req.era_id = some era2 ∧
        era2.is_manual_override = true ∧
        era2.source_origin = some (userTag user.user_id) ∧
        (∀ v, req.registered_name = some v → v ≠ [] → era2.registered_name = stripWS v) ∧
        (∀ v, req.uci_code = some v → v ≠ [] → era2.uci_code = some v) ∧
        (∀ t, req.tier_level = some t → t ≠ 0 → era2.tier_level = some t)) := by
  have hkey : (era.era_id == req.era_id) = true := by
    simpa using List.find?_some hera
  have hid : era.era_id = req.era_id := by simpa using hkey
  have hcond : ¬((if truthyS req.registered_name then req.registered_name else none) = none ∧
      (if truthyS req.uci_code then req.uci_code else none) = none ∧
      (if truthyI req.tier_level then req.tier_level else none) = none) := by
    rcases hch with h | h | h
    · cases hv : req.registered_name with
      | none => rw [hv] at h; simp [truthyS] at h
      | some v => rw [hv] at h; intro hc; simp [hv, h] at hc
    · cases hv : req.uci_code with
      | none => rw [hv] at h; simp [truthyS] at h
      | some v => rw [hv] at h; intro hc; simp [hv, h] at hc
    · cases hv : req.tier_level with
      | none => rw [hv] at h; simp [truthyI] at h
      | some v => rw [hv] at h; intro hc; simp [hv, h] at hc
  constructor
  · intro hrole
    refine ⟨pendingMetaDb db user req eid, ?_, rfl⟩
    simp only [create_metadata_edit, hera]
    rw [if_neg hcond, hrole, if_neg (by simp :
      ¬(UserRole.NEW_USER = UserRole.TRUSTED_USER ∨ UserRole.NEW_USER = UserRole.ADMIN))]
    rfl
  · intro hrole
    have happly := apply_metadata_changes_eq era
      (if truthyS req.registered_name then req.registered_name else none)
      (if truthyS req.uci_code then req.uci_code else none)
      (if truthyI req.tier_level then req.tier_level else none)
      user.user_id
      (by
        intro v hv
        split_ifs at hv with ht
        rw [hv] at ht
        exact hrn v hv (by simpa [truthyS] using ht))
      (by
        intro v hv
        split_ifs at hv with ht
        rw [hv] at ht
        exact huc v hv (by simpa [truthyS] using ht))
      (by
        intro t ht2
        split_ifs at ht2 with ht
        rw [ht2] at ht
        exact htl t ht2 (by simpa [truthyI] using ht))
    refine ⟨approvedMetaDb db user req eid era, applyMetaResult era
        (if truthyS req.registered_name then req.registered_name else none)
        (if truthyS req.uci_code then req.uci_code else none)
        (if truthyI req.tier_level then req.tier_level else none) user.user_id, ?_, ?_,
        rfl, rfl, ?_, ?_, ?_⟩
    · simp only [create_metadata_edit, hera]
      rw [if_neg hcond, if_pos hrole, happly]
      rfl
    · show findEra _ req.era_id = _
      simp only [findEra]
      rw [← hid]
      exact find?_update_key TeamEra.era_id era.era_id (applyMetaResult era
        (if truthyS req.registered_name then req.registered_name else none)
        (if truthyS req.uci_code then req.uci_code else none)
        (if truthyI req.tier_level then req.tier_level else none) user.user_id) rfl db.eras
        (by rw [hid]
            have heq : db.eras.find? (fun e => e.era_id == req.era_id) = some era := hera
            rw [heq]
            rfl)
    · intro v hv hne
      have ht : truthyS (some v) = true := by simp [truthyS, hne]
      simp [applyMetaResult, hv, ht]
    · intro v hv hne
      have ht : truthyS (some v) = true := by simp [truthyS, hne]
      simp [applyMetaResult, hv, ht]
    · intro t htt hne
      have ht : truthyI (some t) = true := by simp [truthyI, hne]
      simp [applyMetaResult, htt, ht]

/-- C5 witness data: one node, one era, a new-role and a trusted user. -/
def c5Db : DB :=
  ⟨[⟨1, 2000, none⟩], [⟨10, 1, 2005, "Alpha".data, none, some 1, none, false⟩],
   [], [], [], [], []⟩

/-- C5 witness data: rename request against era 10. -/
def c5Req : EditMetadataRequest := ⟨10, some "Beta".data, none, none, "rename please ok".data⟩

/-- C5 witness data: the new-role actor. -/
def c5New : User := ⟨7, .NEW_USER, 0, false⟩

/-- C5 witness data: the trusted actor. -/
def c5Trusted : User := ⟨8, .TRUSTED_USER, 0, false⟩

/-- C5 applied at the concrete scenario: the new actor's edit is
`PENDING` with the era table untouched, the trusted actor's is
`APPROVED` with the era rewritten. -/
theorem C5_witness :
    (∃ db2, create_metadata_edit c5Db c5New c5Req 500 = .ok (.PENDING, db2) ∧
      db2.eras = c5Db.eras) ∧
    (∃ db2 era2, create_metadata_edit c5Db c5Trusted c5Req 501 = .ok (.APPROVED, db2) ∧
      findEra db2 c5Req.era_id = some era2 ∧
      era2.is_manual_override = true ∧
      era2.source_origin = some (userTag c5Trusted.user_id) ∧
      (∀ v, c5Req.registered_name = some v → v ≠ [] → era2.registered_name = stripWS v) ∧
      (∀ v, c5Req.uci_code = some v → v ≠ [] → era2.uci_code = some v) ∧
      (∀ t, c5Req.tier_level = some t → t ≠ 0 → era2.tier_level = some t)) :=
  ⟨(C5_moderation_gating c5Db c5New c5Req 500
      ⟨10, 1, 2005, "Alpha".data, none, some 1, none, false⟩ (by decide) (by decide)
      (Or.inl (by decide))
      (by intro v h hne; cases h; decide)
      (by intro v h hne; cases h)
      (by intro t h hne; cases h)).1 rfl,
   (C5_moderation_gating c5Db c5Trusted c5Req 501
      ⟨10, 1, 2005, "Alpha".data, none, some 1, none, false⟩ (by decide) (by decide)
      (Or.inl (by decide))
      (by intro v h hne; cases h; decide)
      (by intro v h hne; cases h)
      (by intro t h hne; cases h)).2 (Or.inl rfl)⟩

/-- C7 witness data: era 10 already carries 60% prominence. -/
def c7Db : DB :=
  ⟨[⟨1, 2000, none⟩], [⟨10, 1, 2005, "Alpha".data, none, some 1, none, false⟩],
   [⟨100, 10, 20, 1, 60⟩],
   [⟨20, "Acme".data, "#112233".data⟩, ⟨21, "Bcme".data, "#112234".data⟩], [], [], []⟩

/-- C7 applied at the concrete scenario: requesting 50% more than the
current 60% fails with a validation error. -/
theorem C7_witness :
    link_sponsor_to_era c7Db 10 21 2 50 101 = .error .validation :=
  (C7_prominence_invariant c7Db 10 21 2 50 101 (by decide) (by decide)).1 (by decide)

/-- C10 witness data: one era marked as a manual override. -/
def c10Db : DB :=
  ⟨[⟨1, 2000, none⟩], [⟨10, 1, 2005, "Alpha".data, none, some 1, none, true⟩],
   [], [], [], [], []⟩

/-- C10 witness data: a scraped payload. -/
def c10Data : ScrapedTeamData := ⟨"pcs".data, "New Team".data, none, some "WT".data⟩

/-- C10 witness data: the resulting database. -/
def c10Db2 : DB :=
  match upsert_scraped_data c10Db c10Data 5 55 with
  | .ok (_, d) => d
  | .error _ => c10Db

/-- C10 witness data: the inserted era. -/
def c10NewEra : TeamEra :=
  match upsert_scraped_data c10Db c10Data 5 55 with
  | .ok (e, _) => e
  | .error _ => ⟨0, 0, 0, [], none, none, none, false⟩

/-- C10 applied at the concrete scenario: the pre-existing
manual-override era survives the upsert untouched. -/
theorem C10_witness :
    c10Db2.eras = c10Db.eras ++ [c10NewEra] ∧
    ((⟨10, 1, 2005, "Alpha".data, none, some 1, none, true⟩ : TeamEra) ∈ c10Db2.eras ∧
      findEra c10Db2 (10 : Nat) = findEra c10Db (10 : Nat)) :=
  ⟨(C10_scraper_preserves_overrides c10Db c10Data 5 55 c10NewEra c10Db2
      rfl (by decide)).1,
   (C10_scraper_preserves_overrides c10Db c10Data 5 55 c10NewEra c10Db2
      rfl (by decide)).2
      ⟨10, 1, 2005, "Alpha".data, none, some 1, none, true⟩ (by decide) rfl⟩

/-! ### C6: trust promotion on the fifth approval -/

/-- `_apply_metadata_edit` never touches the users table. -/
theorem apply_metadata_edit_mod_users (db : DB) (edit : Edit) (db2 : DB)
    (h : apply_metadata_edit_mod db edit = .ok db2) : db2.users = db.users := by
  simp only [apply_metadata_edit_mod, bind, Except.bind] at h
  repeat' split at h
  all_goals first
    | (rw [Except.ok.injEq] at h; subst h; rfl)
    | cases h

/-- `_apply_split` never touches the users table either. -/
theorem apply_split_users (db : DB) (req : SplitEventRequest) (uid : Nat)
    (ids : List (Nat × Nat × Nat)) (db2 : DB)
    (h : apply_split db req uid ids = .ok db2) : db2.users = db.users := by
  simp only [apply_split, bind, Except.bind] at h
  repeat' split at h
  all_goals first
    | (rw [Except.ok.injEq] at h; subst h; rfl)
    | cases h

/-- Hence the split dispatch of `review_edit` leaves the users table
to the caller's counter update. -/
theorem apply_split_edit_mod_users (db : DB) (edit : Edit)
    (ids : List (Nat × Nat × Nat)) (db2 : DB)
    (h : apply_split_edit_mod db edit ids = .ok db2) : db2.users = db.users := by
  unfold apply_split_edit_mod at h
  repeat' split at h
  all_goals try cases h
  exact apply_split_users db _ edit.user_id ids db2 h


/-- C6: approving a `new`-role actor's edit through `review_edit` —
whatever the edit type, metadata and split applies included —
increments the approval counter and promotes the actor to `trusted`
exactly when the incremented counter reaches the threshold of 5: an
actor on 4 approvals is promoted by the approval that makes it 5, while
any earlier approval leaves the role at `new`. -/
theorem C6_promotion_threshold (db : DB) (edit_id : Nat) (admin : User)
    (notes : Option Str) (split_ids : List (Nat × Nat × Nat))
    (edit : Edit) (user : User) (st : EditStatus) (db2 : DB)
    (hedit : findEdit db edit_id = some edit)
    (huser : findUser db edit.user_id = some user)
    (hrole : user.role = .NEW_USER)
    (hok : review_edit db edit_id admin true notes split_ids = .ok (st, db2)) :
    st = .APPROVED ∧
    (user.approved_edits_count = 4 →
      findUser db2 user.user_id = some
        {user with approved_edits_count := 5, role := .TRUSTED_USER}) ∧
    (user.approved_edits_count < 4 →
      findUser db2 user.user_id = some
        {user with approved_edits_count := user.approved_edits_count + 1}) := by
  have hkey := List.find?_some huser
  have hkeyid : user.user_id = edit.user_id := by simpa using hkey
  have hfu : db.users.find? (fun x => x.user_id == user.user_id) = some user := by
    rw [← hkeyid] at huser
    simpa only [findUser] using huser
  unfold review_edit at hok
  rw [hedit] at hok
  simp only at hok
  repeat' split at hok
  all_goals try cases hok
  · -- promoted branch
    rename_i htrue applied dbA heqA xu u2 heqU hcond
    have husers : dbA.users = db.users := by
      split at heqA
      · exact apply_metadata_edit_mod_users db edit dbA heqA
      · cases heqA
      · exact apply_split_edit_mod_users db edit split_ids dbA heqA
      · cases heqA; rfl
    have hu2 : user = u2 := by
      have h2 : findUser dbA edit.user_id = some user := by
        simpa only [findUser, husers] using huser
      exact (Option.some.inj (heqU.symm.trans h2)).symm
    subst hu2
    refine ⟨rfl, ?_, ?_⟩
    · intro hcount
      show findUser _ user.user_id = _
      simp only [findUser]
      have hupd := find?_update_key User.user_id user.user_id
        {user with approved_edits_count := user.approved_edits_count + 1,
                   role := UserRole.TRUSTED_USER} rfl dbA.users
        (by rw [husers, hfu]; rfl)
      exact hupd.trans (congrArg some (by rw [hcount]; norm_num))
    · intro hcount
      exact absurd hcond.2 (by omega)
  · -- not promoted branch
    rename_i htrue applied dbA heqA xu u2 heqU hcond
    have husers : dbA.users = db.users := by
      split at heqA
      · exact apply_metadata_edit_mod_users db edit dbA heqA
      · cases heqA
      · exact apply_split_edit_mod_users db edit split_ids dbA heqA
      · cases heqA; rfl
    have hu2 : user = u2 := by
      have h2 : findUser dbA edit.user_id = some user := by
        simpa only [findUser, husers] using huser
      exact (Option.some.inj (heqU.symm.trans h2)).symm
    subst hu2
    refine ⟨rfl, ?_, ?_⟩
    · intro hcount
      exact absurd ⟨hrole, by omega⟩ hcond
    · intro hcount
      show findUser _ user.user_id = _
      simp only [findUser]
      exact find?_update_key User.user_id user.user_id
        {user with approved_edits_count := user.approved_edits_count + 1} rfl dbA.users
        (by rw [husers, hfu]; rfl)
  · rename_i hfalse
    exact absurd trivial hfalse

/-- C6 witness data: the submitting actor sits on 4 approvals. -/
def c6User : User := ⟨7, .NEW_USER, 4, false⟩

/-- C6 witness data: the reviewing administrator. -/
def c6Admin : User := ⟨9, .ADMIN, 50, false⟩

/-- C6 witness data: the pending metadata edit under review. -/
def c6Edit : Edit :=
  ⟨77, 7, .METADATA, some 10, none, .metadata (some "Gamma".data) none none none none,
   "rename please".data, .PENDING, none, none⟩

/-- C6 witness data: the database before the review. -/
def c6Db : DB :=
  ⟨[⟨1, 2000, none⟩], [⟨10, 1, 2005, "Alpha".data, none, some 1, none, false⟩],
   [], [], [], [c6Edit], [c6User, c6Admin]⟩

/-- C6 witness data: the review call. -/
def c6Result : Except Err (EditStatus × DB) := review_edit c6Db 77 c6Admin true none []

/-- C6 witness data: the database after the review. -/
def c6Db2 : DB :=
  match c6Result with
  | .ok (_, d) => d
  | .error _ => c6Db

/-- C6 witness data: the resulting status. -/
def c6St : EditStatus :=
  match c6Result with
  | .ok (s, _) => s
  | .error _ => .REJECTED

/-- C6 witness data: a pending split edit submitted by the same actor. -/
def c6SplitEdit : Edit :=
  ⟨78, 7, .SPLIT, none, some 1,
   .split 2005 [("Team One".data, 1), ("Team Two".data, 2)],
   "because of reasons".data, .PENDING, none, none⟩

/-- C6 witness data: the database holding the pending split edit. -/
def c6DbS : DB :=
  ⟨[⟨1, 2000, none⟩], [⟨10, 1, 2005, "Alpha".data, none, some 1, none, false⟩],
   [], [], [], [c6SplitEdit], [c6User, c6Admin]⟩

/-- C6 witness data: the split-edit review call, with fresh piece ids. -/
def c6ResultS : Except Err (EditStatus × DB) :=
  review_edit c6DbS 78 c6Admin true none [(30, 40, 50), (31, 41, 51)]

/-- C6 witness data: the database after the split review. -/
def c6DbS2 : DB :=
  match c6ResultS with
  | .ok (_, d) => d
  | .error _ => c6DbS

/-- C6 witness data: the status of the split review. -/
def c6StS : EditStatus :=
  match c6ResultS with
  | .ok (s, _) => s
  | .error _ => .REJECTED

/-- C6 applied at two concrete scenarios: a fifth metadata approval and
a fifth split approval each promote the actor to trusted with the
counter at 5 (the split approval really applying the split). -/
theorem C6_witness :
    (c6St = .APPROVED ∧
     (c6User.approved_edits_count = 4 →
       findUser c6Db2 c6User.user_id = some
         {c6User with approved_edits_count := 5, role := .TRUSTED_USER}) ∧
     (c6User.approved_edits_count < 4 →
       findUser c6Db2 c6User.user_id = some
         {c6User with approved_edits_count := c6User.approved_edits_count + 1})) ∧
    (c6StS = .APPROVED ∧
     (c6User.approved_edits_count = 4 →
       findUser c6DbS2 c6User.user_id = some
         {c6User with approved_edits_count := 5, role := .TRUSTED_USER}) ∧
     (c6User.approved_edits_count < 4 →
       findUser c6DbS2 c6User.user_id = some
         {c6User with approved_edits_count := c6User.approved_edits_count + 1})) :=
  ⟨C6_promotion_threshold c6Db 77 c6Admin none [] c6Edit c6User c6St c6Db2
     (by decide) (by decide) rfl rfl,
   C6_promotion_threshold c6DbS 78 c6Admin none [(30, 40, 50), (31, 41, 51)]
     c6SplitEdit c6User c6StS c6DbS2 (by decide) (by decide) rfl rfl⟩

/-! ### C1 (amended): cache effects of the mutation paths -/

/-- C1 (amended): era creation, sponsor linking and lineage event
creation invalidate the entire timeline cache on success, while
metadata-edit creation, merge-edit creation, split-edit creation and
edit review (including a split approval that really applies the split)
leave the cache untouched whatever their outcome. -/
theorem C1_cache_effects_amended :
    (∀ sys node_id year name uci tier origin manual eid era sys2,
      create_era_sys sys node_id year name uci tier origin manual eid = .ok (era, sys2) →
        sys2.cache = []) ∧
    (∀ sys era_id brand_id rank prom lid link sys2,
      link_sponsor_to_era_sys sys era_id brand_id rank prom lid = .ok (link, sys2) →
        sys2.cache = []) ∧
    (∀ sys pid nid year etype notes eid ev sys2,
      create_event_sys sys pid nid year etype notes eid = .ok (ev, sys2) →
        sys2.cache = []) ∧
    (∀ sys user req eid st sys2,
      create_metadata_edit_sys sys user req eid = .ok (st, sys2) →
        sys2.cache = sys.cache) ∧
    (∀ sys user req eid nn ne evs st sys2,
      create_merge_edit_sys sys user req eid nn ne evs = .ok (st, sys2) →
        sys2.cache = sys.cache) ∧
    (∀ sys user req eid ids st sys2,
      create_split_edit_sys sys user req eid ids = .ok (st, sys2) →
        sys2.cache = sys.cache) ∧
    (∀ sys edit_id admin approved notes sids st sys2,
      review_edit_sys sys edit_id admin approved notes sids = .ok (st, sys2) →
        sys2.cache = sys.cache) := by
  refine ⟨?_, ?_, ?_, ?_, ?_, ?_, ?_⟩ <;>
    (intro sys
     first
      | (intro node_id year name uci tier origin manual eid era sys2 h
         unfold create_era_sys at h)
      | (intro era_id brand_id rank prom lid link sys2 h
         unfold link_sponsor_to_era_sys at h)
      | (intro pid nid year etype notes eid ev sys2 h
         unfold create_event_sys at h)
      | (intro user req eid st sys2 h
         unfold create_metadata_edit_sys at h)
      | (intro user req eid nn ne evs st sys2 h
         unfold create_merge_edit_sys at h)
      | (intro user req eid ids st sys2 h
         unfold create_split_edit_sys at h)
      | (intro edit_id admin approved notes sids st sys2 h
         unfold review_edit_sys at h)) <;>
    (split at h
     · cases h
     · cases h; rfl)

/-- C1 witness data: an era-creation call against the cached state,
and its outcome. -/
def c1EraCall : Except Err (TeamEra × Sys) :=
  create_era_sys c1Call1.2 1 2006 "Gamma".data none none none false 60

/-- C1 witness data: the state after the era creation. -/
def c1EraSys2 : Sys :=
  match c1EraCall with
  | .ok (_, s) => s
  | .error _ => c1Call1.2

/-- C1 witness data: the created era. -/
def c1EraOut : TeamEra :=
  match c1EraCall with
  | .ok (e, _) => e
  | .error _ => ⟨0, 0, 0, [], none, none, none, false⟩

/-- C1 witness data: a split request against the cached state. -/
def c1SplitReq : SplitEventRequest :=
  ⟨1, 2005, [("Team One".data, 1), ("Team Two".data, 2)], "split for testing".data⟩

/-- C1 witness data: the state after the trusted user's auto-approved
split edit. -/
def c1SplitSys2 : Sys :=
  match create_split_edit_sys c1Call1.2 c1User c1SplitReq 501
      [(30, 40, 50), (31, 41, 51)] with
  | .ok (_, s) => s
  | .error _ => ⟨c1Db, []⟩

/-- C1 witness data: the reviewing administrator. -/
def c1Admin : User := ⟨9, .ADMIN, 0, false⟩

/-- C1 witness data: a stored pending split edit awaiting review. -/
def c1SplitEdit : Edit :=
  ⟨91, 7, .SPLIT, none, some 1,
   .split 2005 [("Team One".data, 1), ("Team Two".data, 2)],
   "split for testing".data, .PENDING, none, none⟩

/-- C1 witness data: the cached state holding the pending split edit. -/
def c1SysR : Sys :=
  ⟨⟨c1Db.nodes, c1Db.eras, [], [], [], [c1SplitEdit], [c1User, c1Admin]⟩,
   c1Call1.2.cache⟩

/-- C1 witness data: the split-approving review call. -/
def c1RevCall : Except Err (EditStatus × Sys) :=
  review_edit_sys c1SysR 91 c1Admin true none [(30, 40, 50), (31, 41, 51)]

/-- C1 witness data: the state after the split approval. -/
def c1RevSys2 : Sys :=
  match c1RevCall with
  | .ok (_, s) => s
  | .error _ => ⟨c1Db, []⟩

/-- C1 witness data: the status returned by the split approval. -/
def c1RevSt : EditStatus :=
  match c1RevCall with
  | .ok (s, _) => s
  | .error _ => .REJECTED

/-- C1 (amended) applied at the concrete scenarios: the era creation
clears the warm cache, while the trusted metadata edit, the trusted
auto-applied split edit and the admin-approved (really applied) split
edit all leave it untouched. -/
theorem C1_witness :
    c1EraSys2.cache = [] ∧ c1Sys2.cache = c1Call1.2.cache ∧
    c1SplitSys2.cache = c1Call1.2.cache ∧ c1RevSys2.cache = c1SysR.cache :=
  ⟨C1_cache_effects_amended.1 c1Call1.2 1 2006 "Gamma".data none none none false 60
      c1EraOut c1EraSys2 rfl,
   C1_cache_effects_amended.2.2.2.1 c1Call1.2 c1User c1Req 500 .APPROVED c1Sys2 rfl,
   C1_cache_effects_amended.2.2.2.2.2.1 c1Call1.2 c1User c1SplitReq 501
      [(30, 40, 50), (31, 41, 51)] .APPROVED c1SplitSys2 rfl,
   C1_cache_effects_amended.2.2.2.2.2.2 c1SysR 91 c1Admin true none
      [(30, 40, 50), (31, 41, 51)] c1RevSt c1RevSys2 rfl⟩

/-! ### C8 (amended): the lifespan invariant is only half enforced -/

/-- C8 (amended): on the approved-metadata-edit path the founding-year
half of the lifespan invariant is enforced — a founding year below 1900
fails the model validator and nothing is written — while the
dissolution half is not: a dissolution year in the changes payload is
written verbatim with no comparison against the node's founding year. -/
theorem C8_lifespan_amended (db : DB) (edit : Edit) (eidE nidN : Nat)
    (era : TeamEra) (node : TeamNode)
    (hte : edit.target_era_id = some eidE) (hera : findEra db eidE = some era)
    (htn : edit.target_node_id = some nidN) (hnode : findNode db nidN = some node) :
    (∀ y dy, edit.changes = .metadata none none none (some y) dy → y < 1900 →
      apply_metadata_edit_mod db edit = .error .valueError) ∧
    (∀ d, edit.changes = .metadata none none none none (some d) →
      ∃ db2, apply_metadata_edit_mod db edit = .ok db2 ∧
        findNode db2 node.node_id = some {node with dissolution_year := some d}) := by
  have hkeyn := List.find?_some hnode
  have hkeynid : node.node_id = nidN := by simpa using hkeyn
  constructor
  · intro y dy hch hy
    simp only [apply_metadata_edit_mod, bind, Except.bind, hte, htn, Option.bind,
      hera, hnode, hch, metaFields, setFoundingYear]
    rw [if_pos hy]
  · intro d hch
    refine ⟨{ db with
        eras := db.eras.map fun (e : TeamEra) =>
          if e.era_id == era.era_id then
            {era with is_manual_override := true,
                      source_origin := some (userTag edit.user_id)}
          else e,
        nodes := db.nodes.map fun (m : TeamNode) =>
          if m.node_id == node.node_id then {node with dissolution_year := some d}
          else m }, ?_, ?_⟩
    · simp only [apply_metadata_edit_mod, bind, Except.bind, hte, htn, Option.bind,
        hera, hnode, hch, metaFields]
    · show findNode _ node.node_id = _
      simp only [findNode]
      exact find?_update_key TeamNode.node_id node.node_id
        {node with dissolution_year := some d} rfl db.nodes
        (by have hfn : db.nodes.find? (fun n => n.node_id == node.node_id) = some node := by
              rw [hkeynid]
              simpa only [findNode] using hnode
            rw [hfn]
            rfl)

/-- C8 witness data: a metadata edit carrying a founding year below
1900. -/
def c8EditF : Edit :=
  ⟨79, 7, .METADATA, some 10, some 1, .metadata none none none (some 1800) none,
   "bad founding year".data, .PENDING, none, none⟩

/-- C8 (amended) applied at the concrete scenario: writing founding
year 1800 fails, while dissolution year 1950 on a node founded in 2000
is written without complaint. -/
theorem C8_witness :
    apply_metadata_edit_mod c8Db c8EditF = .error .valueError ∧
    (∃ db2, apply_metadata_edit_mod c8Db c8Edit = .ok db2 ∧
      findNode db2 (1 : Nat) = some ⟨1, 2000, some 1950⟩) :=
  ⟨(C8_lifespan_amended c8Db c8EditF 10 1
      ⟨10, 1, 2005, "Alpha".data, none, some 1, none, false⟩ ⟨1, 2000, none⟩
      rfl (by decide) rfl (by decide)).1 1800 none rfl (by decide),
   (C8_lifespan_amended c8Db c8Edit 10 1
      ⟨10, 1, 2005, "Alpha".data, none, some 1, none, false⟩ ⟨1, 2000, none⟩
      rfl (by decide) rfl (by decide)).2 1950 rfl⟩

/-! ### C3: single-leg downgrade and the no-lone-leg invariant -/

/-- Unfolding of a successful `create_event`: the stored pair is exactly
the canonicalization of the appended raw event. -/
theorem create_event_ok_shape (db : DB) (pid nid : Option Nat) (y : Int)
    (t : EventType) (notes : Option Str) (eid : Nat) (ev : LineageEvent) (db2 : DB)
    (hok : create_event db pid nid y t notes eid = .ok (ev, db2)) :
    (ev, db2) = canonicalize {db with events := db.events ++
      [⟨eid, pid, nid, y, t, notes⟩]} ⟨eid, pid, nid, y, t, notes⟩ := by
  unfold create_event at hok
  repeat' split at hok
  all_goals first
    | cases hok
    | (rw [Except.ok.injEq] at hok; exact hok.symm)

/-- No MERGE event is alone in its (year, next) group, and no SPLIT
event is alone in its (year, previous) group. -/
def NoLoneLeg (events : List LineageEvent) : Prop :=
  (∀ e ∈ events, e.event_type = .MERGE →
    2 ≤ (mergeGroup events e.next_node_id e.event_year).length) ∧
  (∀ e ∈ events, e.event_type = .SPLIT →
    2 ≤ (splitGroup events e.previous_node_id e.event_year).length)

/-- The merge sibling query distributes over append. -/
theorem mergeGroup_append (l1 l2 : List LineageEvent) (n : Option Nat) (y : Int) :
    mergeGroup (l1 ++ l2) n y = mergeGroup l1 n y ++ mergeGroup l2 n y := by
  simp [mergeGroup, List.filter_append]

/-- The split sibling query distributes over append. -/
theorem splitGroup_append (l1 l2 : List LineageEvent) (n : Option Nat) (y : Int) :
    splitGroup (l1 ++ l2) n y = splitGroup l1 n y ++ splitGroup l2 n y := by
  simp [splitGroup, List.filter_append]

/-- Appending events whose own groups (measured in the appended store)
have two or more members preserves the invariant: old events only gain
siblings. -/
theorem NoLoneLeg.append (l evs : List LineageEvent) (hinv : NoLoneLeg l)
    (hm : ∀ ev ∈ evs, ev.event_type = .MERGE →
      2 ≤ (mergeGroup (l ++ evs) ev.next_node_id ev.event_year).length)
    (hs : ∀ ev ∈ evs, ev.event_type = .SPLIT →
      2 ≤ (splitGroup (l ++ evs) ev.previous_node_id ev.event_year).length) :
    NoLoneLeg (l ++ evs) := by
  constructor
  · intro e he ht
    rcases List.mem_append.mp he with hl | hr
    · rw [mergeGroup_append, List.length_append]
      have := hinv.1 e hl ht
      omega
    · exact hm e hr ht
  · intro e he ht
    rcases List.mem_append.mp he with hl | hr
    · rw [splitGroup_append, List.length_append]
      have := hinv.2 e hl ht
      omega
    · exact hs e hr ht

/-- A pointwise update that keeps type, endpoints and year (such as the
notes rewrite of the two-or-more branch) preserves the invariant. -/
theorem NoLoneLeg.map_notes (l : List LineageEvent) (upd : LineageEvent → LineageEvent)
    (hupd : ∀ e, (upd e).event_type = e.event_type ∧ (upd e).next_node_id = e.next_node_id ∧
      (upd e).previous_node_id = e.previous_node_id ∧ (upd e).event_year = e.event_year)
    (hinv : NoLoneLeg l) : NoLoneLeg (l.map upd) := by
  have hmg : ∀ n y, mergeGroup (l.map upd) n y = (mergeGroup l n y).map upd := by
    intro n y
    simp only [mergeGroup, List.filter_map]
    congr 1
    apply List.filter_congr
    intro e _
    simp only [Function.comp_apply, (hupd e).1, (hupd e).2.1, (hupd e).2.2.2]
  have hsg : ∀ n y, splitGroup (l.map upd) n y = (splitGroup l n y).map upd := by
    intro n y
    simp only [splitGroup, List.filter_map]
    congr 1
    apply List.filter_congr
    intro e _
    simp only [Function.comp_apply, (hupd e).1, (hupd e).2.2.1, (hupd e).2.2.2]
  constructor
  · intro e he ht
    obtain ⟨e0, he0, rfl⟩ := List.mem_map.mp he
    rw [(hupd e0).2.1, (hupd e0).2.2.2, hmg, List.length_map]
    exact hinv.1 e0 he0 ((hupd e0).1 ▸ ht)
  · intro e he ht
    obtain ⟨e0, he0, rfl⟩ := List.mem_map.mp he
    rw [(hupd e0).2.2.1, (hupd e0).2.2.2, hsg, List.length_map]
    exact hinv.2 e0 he0 ((hupd e0).1 ▸ ht)

/-- When the new event id is fresh, the keyed update of the
canonicalization pass only rewrites the appended event. -/
theorem map_update_append (l : List LineageEvent) (ev ev2 : LineageEvent) (eid : Nat)
    (hfresh : ∀ e ∈ l, e.event_id ≠ eid) (hid : ev.event_id = eid) :
    (l ++ [ev]).map (fun e => if e.event_id == ev.event_id then ev2 else e) =
      l ++ [ev2] := by
  rw [List.map_append]
  congr 1
  · rw [List.map_congr_left (g := id), List.map_id]
    intro e he
    simp [hid, hfresh e he]
  · simp

/-- A MERGE event always belongs to its own sibling group. -/
theorem event_self_merge (dbev : List LineageEvent) (event : LineageEvent)
    (ht : event.event_type = .MERGE) :
    mergeGroup (dbev ++ [event]) event.next_node_id event.event_year =
      mergeGroup dbev event.next_node_id event.event_year ++ [event] := by
  rw [mergeGroup_append]
  congr 1
  simp [mergeGroup, List.filter, ht]

/-- A SPLIT event always belongs to its own sibling group. -/
theorem event_self_split (dbev : List LineageEvent) (event : LineageEvent)
    (ht : event.event_type = .SPLIT) :
    splitGroup (dbev ++ [event]) event.previous_node_id event.event_year =
      splitGroup dbev event.previous_node_id event.event_year ++ [event] := by
  rw [splitGroup_append]
  congr 1
  simp [splitGroup, List.filter, ht]

/-- `create_event` preserves the no-lone-leg invariant whatever the
submitted type: a lone leg is downgraded, a completed group keeps its
two-or-more members, plain transfers never join a group. -/
theorem create_event_preserves (db : DB) (pid nid : Option Nat) (y : Int)
    (t : EventType) (notes : Option Str) (eid : Nat) (ev : LineageEvent) (db2 : DB)
    (hfresh : ∀ e ∈ db.events, e.event_id ≠ eid)
    (hinv : NoLoneLeg db.events)
    (hok : create_event db pid nid y t notes eid = .ok (ev, db2)) :
    NoLoneLeg db2.events := by
  have hshape := create_event_ok_shape db pid nid y t notes eid ev db2 hok
  rw [Prod.mk.injEq] at hshape
  obtain ⟨hev, hdb2⟩ := hshape
  set event : LineageEvent := ⟨eid, pid, nid, y, t, notes⟩ with hevent
  cases t with
  | MERGE =>
    have hself := event_self_merge db.events event rfl
    simp only [canonicalize] at hdb2
    split at hdb2
    · rw [hdb2]
      show NoLoneLeg (((db.events ++ [event]).map _))
      rw [map_update_append db.events event _ eid hfresh rfl]
      exact NoLoneLeg.append db.events _ hinv
        (by intro e he htm
            rcases List.mem_singleton.mp he with rfl
            cases htm)
        (by intro e he hts
            rcases List.mem_singleton.mp he with rfl
            cases hts)
    · split at hdb2
      · next hlen2 =>
        rw [hdb2]
        apply NoLoneLeg.map_notes
        · intro e
          dsimp only
          split <;> simp
        · refine NoLoneLeg.append db.events [event] hinv ?_ ?_
          · intro e he htm
            rcases List.mem_singleton.mp he with rfl
            exact hlen2
          · intro e he hts
            rcases List.mem_singleton.mp he with rfl
            cases hts
      · next h2 =>
        exfalso
        have hmem : event ∈ mergeGroup (db.events ++ [event]) nid y := by
          have hf := event_self_merge db.events event rfl
          rw [show event.next_node_id = nid from rfl, show event.event_year = y from rfl] at hf
          rw [hf]
          exact List.mem_append_right _ (List.mem_singleton.mpr rfl)
        have hpos := List.length_pos_of_mem hmem
        rename_i hne1
        omega
  | SPLIT =>
    have hself := event_self_split db.events event rfl
    simp only [canonicalize] at hdb2
    split at hdb2
    · rw [hdb2]
      show NoLoneLeg (((db.events ++ [event]).map _))
      rw [map_update_append db.events event _ eid hfresh rfl]
      exact NoLoneLeg.append db.events _ hinv
        (by intro e he htm
            rcases List.mem_singleton.mp he with rfl
            cases htm)
        (by intro e he hts
            rcases List.mem_singleton.mp he with rfl
            cases hts)
    · split at hdb2
      · next hlen2 =>
        rw [hdb2]
        apply NoLoneLeg.map_notes
        · intro e
          dsimp only
          split <;> simp
        · refine NoLoneLeg.append db.events [event] hinv ?_ ?_
          · intro e he htm
            rcases List.mem_singleton.mp he with rfl
            cases htm
          · intro e he hts
            rcases List.mem_singleton.mp he with rfl
            exact hlen2
      · next h2 =>
        exfalso
        have hmem : event ∈ splitGroup (db.events ++ [event]) pid y := by
          have hf := event_self_split db.events event rfl
          rw [show event.previous_node_id = pid from rfl,
              show event.event_year = y from rfl] at hf
          rw [hf]
          exact List.mem_append_right _ (List.mem_singleton.mpr rfl)
        have hpos := List.length_pos_of_mem hmem
        rename_i hne1
        omega
  | LEGAL_TRANSFER =>
    simp only [canonicalize] at hdb2
    rw [hdb2]
    exact NoLoneLeg.append db.events [event] hinv
      (by intro e he htm
          rcases List.mem_singleton.mp he with rfl
          cases htm)
      (by intro e he hts
          rcases List.mem_singleton.mp he with rfl
          cases hts)
  | SPIRITUAL_SUCCESSION =>
    simp only [canonicalize] at hdb2
    rw [hdb2]
    exact NoLoneLeg.append db.events [event] hinv
      (by intro e he htm
          rcases List.mem_singleton.mp he with rfl
          cases htm)
      (by intro e he hts
          rcases List.mem_singleton.mp he with rfl
          cases hts)

/-- Lone-merge downgrade: with no pre-existing sibling, the stored
event is a LEGAL_TRANSFER with the lone marker stripped. -/
theorem create_event_lone_merge (db : DB) (pid nid : Option Nat) (y : Int)
    (notes : Option Str) (eid : Nat) (ev : LineageEvent) (db2 : DB)
    (hfresh : ∀ e ∈ db.events, e.event_id ≠ eid)
    (hempty : mergeGroup db.events nid y = [])
    (hok : create_event db pid nid y .MERGE notes eid = .ok (ev, db2)) :
    ev.event_type = .LEGAL_TRANSFER ∧ ev.notes = stripLone mergeLonePhrase notes ∧
    db2.events = db.events ++ [ev] := by
  have hshape := create_event_ok_shape db pid nid y .MERGE notes eid ev db2 hok
  set event : LineageEvent := ⟨eid, pid, nid, y, .MERGE, notes⟩ with hevent
  have hself : mergeGroup (db.events ++ [event]) nid y = [event] := by
    have hf := event_self_merge db.events event rfl
    rw [show event.next_node_id = nid from rfl, show event.event_year = y from rfl] at hf
    rw [hf, hempty, List.nil_append]
  simp only [canonicalize, hself] at hshape
  rw [if_pos (show ([event] : List LineageEvent).length = 1 from rfl)] at hshape
  rw [Prod.mk.injEq] at hshape
  obtain ⟨hev, hdb2⟩ := hshape
  subst hev
  refine ⟨rfl, rfl, ?_⟩
  rw [hdb2]
  exact map_update_append db.events event _ eid hfresh rfl

/-- Lone-split downgrade, symmetric to the merge case. -/
theorem create_event_lone_split (db : DB) (pid nid : Option Nat) (y : Int)
    (notes : Option Str) (eid : Nat) (ev : LineageEvent) (db2 : DB)
    (hfresh : ∀ e ∈ db.events, e.event_id ≠ eid)
    (hempty : splitGroup db.events pid y = [])
    (hok : create_event db pid nid y .SPLIT notes eid = .ok (ev, db2)) :
    ev.event_type = .LEGAL_TRANSFER ∧ ev.notes = stripLone splitLonePhrase notes ∧
    db2.events = db.events ++ [ev] := by
  have hshape := create_event_ok_shape db pid nid y .SPLIT notes eid ev db2 hok
  set event : LineageEvent := ⟨eid, pid, nid, y, .SPLIT, notes⟩ with hevent
  have hself : splitGroup (db.events ++ [event]) pid y = [event] := by
    have hf := event_self_split db.events event rfl
    rw [show event.previous_node_id = pid from rfl, show event.event_year = y from rfl] at hf
    rw [hf, hempty, List.nil_append]
  simp only [canonicalize, hself] at hshape
  rw [if_pos (show ([event] : List LineageEvent).length = 1 from rfl)] at hshape
  rw [Prod.mk.injEq] at hshape
  obtain ⟨hev, hdb2⟩ := hshape
  subst hev
  refine ⟨rfl, rfl, ?_⟩
  rw [hdb2]
  exact map_update_append db.events event _ eid hfresh rfl

/-- `EditService._apply_merge` appends a complete group of MERGE legs
(one per validated source, at least two by the request schema), so the
invariant survives. -/
theorem apply_merge_preserves (db : DB) (req : MergeEventRequest) (uid nn ne : Nat)
    (evids : List Nat) (db2 : DB)
    (hcnt : 2 ≤ req.source_node_ids.length)
    (hlen : req.source_node_ids.length ≤ evids.length)
    (hinv : NoLoneLeg db.events)
    (hok : apply_merge db req uid nn ne evids = .ok db2) :
    NoLoneLeg db2.events := by
  simp only [apply_merge, bind, Except.bind] at hok
  repeat' split at hok
  all_goals try cases hok
  show NoLoneLeg (db.events ++ _)
  set evs := (req.source_node_ids.zip evids).map (fun si =>
    ({ event_id := si.2, previous_node_id := some si.1, next_node_id := some nn,
       event_year := req.merge_year, event_type := EventType.MERGE,
       notes := some (mergeNoteFor req.new_team_name) } : LineageEvent)) with hevs
  have hfields : ∀ ev ∈ evs, ev.event_type = .MERGE ∧ ev.next_node_id = some nn ∧
      ev.event_year = req.merge_year := by
    intro ev hev
    obtain ⟨si, _, rfl⟩ := List.mem_map.mp hev
    exact ⟨rfl, rfl, rfl⟩
  have hgrp : mergeGroup evs (some nn) req.merge_year = evs := by
    apply List.filter_eq_self.mpr
    intro ev hev
    obtain ⟨si, _, rfl⟩ := List.mem_map.mp hev
    simp
  have hlenevs : evs.length = req.source_node_ids.length := by
    rw [hevs, List.length_map, List.length_zip]
    omega
  refine NoLoneLeg.append db.events evs hinv ?_ ?_
  · intro ev hev htm
    rw [(hfields ev hev).2.1, (hfields ev hev).2.2, mergeGroup_append, List.length_append,
      hgrp]
    omega
  · intro ev hev hts
    rw [(hfields ev hev).1] at hts
    cases hts

/-- Every event produced by the split-piece loop is a SPLIT leg out of
the source node in the split year, one per new team. -/
theorem splitPieces_events (uid src : Nat) (year : Int) :
    ∀ (lst : List ((Str × Int) × (Nat × Nat × Nat))) ns es evs,
      splitPieces uid src year lst = .ok (ns, es, evs) →
      evs.length = lst.length ∧ ∀ ev ∈ evs, ev.event_type = .SPLIT ∧
        ev.previous_node_id = some src ∧ ev.event_year = year
  | [], ns, es, evs, h => by
    simp only [splitPieces] at h
    rw [Except.ok.injEq] at h
    obtain ⟨-, -, rfl⟩ := h
    exact ⟨rfl, by intro ev hev; cases hev⟩
  | (team, ids) :: rest, ns, es, evs, h => by
    simp only [splitPieces, bind, Except.bind] at h
    repeat' split at h
    all_goals try cases h
    next v heq =>
    have ih := splitPieces_events uid src year rest v.1 v.2.1 v.2.2 heq
    constructor
    · simp [ih.1]
    · intro ev hev
      rcases List.mem_cons.mp hev with rfl | hmem
      · exact ⟨rfl, rfl, rfl⟩
      · exact ih.2 ev hmem

/-- `EditService._apply_split` appends a complete group of SPLIT legs
(one per new team, at least two by the request schema), so the
invariant survives. -/
theorem apply_split_preserves (db : DB) (req : SplitEventRequest) (uid : Nat)
    (ids : List (Nat × Nat × Nat)) (db2 : DB)
    (hcnt : 2 ≤ req.new_teams.length)
    (hlen : req.new_teams.length ≤ ids.length)
    (hinv : NoLoneLeg db.events)
    (hok : apply_split db req uid ids = .ok db2) :
    NoLoneLeg db2.events := by
  simp only [apply_split, bind, Except.bind] at hok
  repeat' split at hok
  all_goals try cases hok
  next v heq =>
  have hp := splitPieces_events uid req.source_node_id req.split_year
    (req.new_teams.zip ids) v.1 v.2.1 v.2.2 heq
  show NoLoneLeg (db.events ++ v.2.2)
  have hgrp : splitGroup v.2.2 (some req.source_node_id) req.split_year = v.2.2 := by
    apply List.filter_eq_self.mpr
    intro ev hev
    have hf := hp.2 ev hev
    simp [hf.1, hf.2.1, hf.2.2]
  have hlenevs : v.2.2.length = req.new_teams.length := by
    rw [hp.1, List.length_zip]
    omega
  refine NoLoneLeg.append db.events v.2.2 hinv ?_ ?_
  · intro ev hev htm
    rw [(hp.2 ev hev).1] at htm
    cases htm
  · intro ev hev hts
    rw [(hp.2 ev hev).2.1, (hp.2 ev hev).2.2, splitGroup_append, List.length_append, hgrp]
    omega

/-- When the notes contain the incomplete phrase, the lone-leg rewrite
either drops the notes entirely or keeps only stripped pipe segments
that no longer start with the phrase. -/
theorem stripLone_clears (phrase : Str) (s : Str)
    (hsub : containsSub s phrase = true) (hne : s.isEmpty = false) :
    stripLone phrase (some s) = none ∨
    ∃ parts, stripLone phrase (some s) = some (List.intercalate " | ".data parts) ∧
      ∀ p ∈ parts, phrase.isPrefixOf p = false := by
  simp only [stripLone, stripNotes, hne, hsub, Bool.not_false, Bool.and_self, if_true]
  split_ifs with hp
  · exact Or.inl rfl
  · refine Or.inr ⟨_, rfl, ?_⟩
    intro p hpmem
    obtain ⟨q, hq, rfl⟩ := List.mem_map.mp hpmem
    have := List.of_mem_filter hq
    simp only [Bool.and_eq_true, Bool.not_eq_true'] at this
    exact this.2

/-- C3: after any operation that creates lineage events, a MERGE event
that is alone in its (year, next node) group has been retyped to
LEGAL_TRANSFER with the incomplete annotation stripped from its notes,
and symmetrically for a lone SPLIT event in its (year, previous node)
group.  Stated as: (1) `create_event` on an empty merge group stores a
LEGAL_TRANSFER event with the lone marker stripped; (2) the same for an
empty split group; (3) the stripping really removes every segment
starting with the incomplete phrase; (4) `create_event` preserves the
global no-lone-leg invariant for every event type; (5) the merge-edit
apply and (6) the split-edit apply (which create MERGE/SPLIT events
directly, always in groups of two or more per the request schema)
preserve the invariant as well. -/
theorem C3_single_leg_downgrade :
    (∀ db pid nid y notes eid ev db2,
      (∀ e ∈ db.events, e.event_id ≠ eid) →
      mergeGroup db.events nid y = [] →
      create_event db pid nid y .MERGE notes eid = .ok (ev, db2) →
      ev.event_type = .LEGAL_TRANSFER ∧ ev.notes = stripLone mergeLonePhrase notes ∧
        db2.events = db.events ++ [ev]) ∧
    (∀ db pid nid y notes eid ev db2,
      (∀ e ∈ db.events, e.event_id ≠ eid) →
      splitGroup db.events pid y = [] →
      create_event db pid nid y .SPLIT notes eid = .ok (ev, db2) →
      ev.event_type = .LEGAL_TRANSFER ∧ ev.notes = stripLone splitLonePhrase notes ∧
        db2.events = db.events ++ [ev]) ∧
    (∀ phrase s, containsSub s phrase = true → s.isEmpty = false →
      stripLone phrase (some s) = none ∨
      ∃ parts, stripLone phrase (some s) = some (List.intercalate " | ".data parts) ∧
        ∀ p ∈ parts, phrase.isPrefixOf p = false) ∧
    (∀ db pid nid y t notes eid ev db2,
      (∀ e ∈ db.events, e.event_id ≠ eid) → NoLoneLeg db.events →
      create_event db pid nid y t notes eid = .ok (ev, db2) → NoLoneLeg db2.events) ∧
    (∀ db req uid nn ne evids db2,
      2 ≤ req.source_node_ids.length → req.source_node_ids.length ≤ evids.length →
      NoLoneLeg db.events → apply_merge db req uid nn ne evids = .ok db2 →
      NoLoneLeg db2.events) ∧
    (∀ db req uid ids db2,
      2 ≤ req.new_teams.length → req.new_teams.length ≤ ids.length →
      NoLoneLeg db.events → apply_split db req uid ids = .ok db2 →
      NoLoneLeg db2.events) := by
  refine ⟨?_, ?_, ?_, ?_, ?_, ?_⟩
  · exact fun db pid nid y notes eid ev db2 =>
      create_event_lone_merge db pid nid y notes eid ev db2
  · exact fun db pid nid y notes eid ev db2 =>
      create_event_lone_split db pid nid y notes eid ev db2
  · exact fun phrase s => stripLone_clears phrase s
  · exact fun db pid nid y t notes eid ev db2 =>
      create_event_preserves db pid nid y t notes eid ev db2
  · exact fun db req uid nn ne evids db2 =>
      apply_merge_preserves db req uid nn ne evids db2
  · exact fun db req uid ids db2 =>
      apply_split_preserves db req uid ids db2

/-- C3 witness data: two unrelated nodes and an empty event table. -/
def c3Db : DB := ⟨[⟨1, 2010, none⟩, ⟨3, 2020, none⟩], [], [], [], [], [], []⟩

/-- C3 witness data: notes carrying the incomplete-merge marker plus a
second segment that must survive the stripping. -/
def c3Notes : Str := "INCOMPLETE MERGE: add another predecessor | taken over".data

/-- C3 witness data: the stored event and database of the lone merge
leg. -/
def c3Result : LineageEvent × DB :=
  match create_event c3Db (some 1) (some 3) 2021 .MERGE (some c3Notes) 101 with
  | .ok p => p
  | .error _ => (⟨0, none, none, 0, .MERGE, none⟩, c3Db)

/-- C3 witness data: the stored event. -/
def c3Ev : LineageEvent := c3Result.1

/-- C3 witness data: the database after the call. -/
def c3Db2 : DB := c3Result.2

/-- C3 applied at the concrete scenario: a lone merge leg with the
incomplete marker comes back as a LEGAL_TRANSFER with the marker
stripped, appended to the store. -/
theorem C3_witness :
    c3Ev.event_type = .LEGAL_TRANSFER ∧
    c3Ev.notes = stripLone mergeLonePhrase (some c3Notes) ∧
    c3Db2.events = c3Db.events ++ [c3Ev] :=
  C3_single_leg_downgrade.1 c3Db (some 1) (some 3) 2021 (some c3Notes) 101 c3Ev c3Db2
    (by decide) (by decide) rfl

/-! ### C2: order independence of merge-leg submission -/

/-- Full record identity of the lone-merge downgrade: with no
pre-existing sibling, the stored event is exactly the submitted record
retyped to LEGAL_TRANSFER with notes stripped. -/
theorem create_event_lone_merge_full (db : DB) (pid nid : Option Nat) (y : Int)
    (notes : Option Str) (eid : Nat) (ev : LineageEvent) (db2 : DB)
    (hfresh : ∀ e ∈ db.events, e.event_id ≠ eid)
    (hempty : mergeGroup db.events nid y = [])
    (hok : create_event db pid nid y .MERGE notes eid = .ok (ev, db2)) :
    ev = ⟨eid, pid, nid, y, .LEGAL_TRANSFER, stripLone mergeLonePhrase notes⟩ ∧
    db2.events = db.events ++ [ev] := by
  have hshape := create_event_ok_shape db pid nid y .MERGE notes eid ev db2 hok
  set event : LineageEvent := ⟨eid, pid, nid, y, .MERGE, notes⟩ with hevent
  have hself : mergeGroup (db.events ++ [event]) nid y = [event] := by
    have hf := event_self_merge db.events event rfl
    rw [show event.next_node_id = nid from rfl, show event.event_year = y from rfl] at hf
    rw [hf, hempty, List.nil_append]
  simp only [canonicalize, hself] at hshape
  rw [if_pos (show ([event] : List LineageEvent).length = 1 from rfl)] at hshape
  rw [Prod.mk.injEq] at hshape
  obtain ⟨hev, hdb2⟩ := hshape
  subst hev
  refine ⟨rfl, ?_⟩
  rw [hdb2]
  exact map_update_append db.events event _ eid hfresh rfl

/-- C2 (amended): submitting two merge legs A and B (same year, same
next node, starting from a store with no pre-existing sibling of that
group) in either order converges to the same final event types and
notes on both stored events — the final stores are permutations of each
other and the record of each leg is identical in both — but in that
final state BOTH legs carry LEGAL_TRANSFER, not MERGE: the sibling
query of the canonicalization pass counts only MERGE-typed events, and
the earlier leg has already been downgraded when the later leg arrives,
so the spec's claim that a completed two-leg group carries the merge
type with the incomplete annotation cleared does not hold for
sequential submission. -/
theorem C2_order_independent_amended (db : DB) (a b n : Nat) (y : Int)
    (nA nB : Option Str) (e1 e2 : Nat)
    (evA1 evB1 evB2 evA2 : LineageEvent) (db1 db2 db1' db2' : DB)
    (hfresh1 : ∀ e ∈ db.events, e.event_id ≠ e1)
    (hfresh2 : ∀ e ∈ db.events, e.event_id ≠ e2)
    (hne : e1 ≠ e2)
    (hempty : mergeGroup db.events (some n) y = [])
    (hAB1 : create_event db (some a) (some n) y .MERGE nA e1 = .ok (evA1, db1))
    (hAB2 : create_event db1 (some b) (some n) y .MERGE nB e2 = .ok (evB1, db2))
    (hBA1 : create_event db (some b) (some n) y .MERGE nB e2 = .ok (evB2, db1'))
    (hBA2 : create_event db1' (some a) (some n) y .MERGE nA e1 = .ok (evA2, db2')) :
    db2.events = db.events ++
      [⟨e1, some a, some n, y, .LEGAL_TRANSFER, stripLone mergeLonePhrase nA⟩,
       ⟨e2, some b, some n, y, .LEGAL_TRANSFER, stripLone mergeLonePhrase nB⟩] ∧
    db2'.events = db.events ++
      [⟨e2, some b, some n, y, .LEGAL_TRANSFER, stripLone mergeLonePhrase nB⟩,
       ⟨e1, some a, some n, y, .LEGAL_TRANSFER, stripLone mergeLonePhrase nA⟩] ∧
    db2.events.Perm db2'.events := by
  obtain ⟨hevA, hdb1⟩ := create_event_lone_merge_full db (some a) (some n) y nA e1
    evA1 db1 hfresh1 hempty hAB1
  subst hevA
  have hfresh2' : ∀ e ∈ db1.events, e.event_id ≠ e2 := by
    intro e he
    rw [hdb1] at he
    rcases List.mem_append.mp he with hl | hr
    · exact hfresh2 e hl
    · rcases List.mem_singleton.mp hr with rfl
      exact hne
  have hempty1 : mergeGroup db1.events (some n) y = [] := by
    rw [hdb1, mergeGroup_append, hempty, List.nil_append]
    simp [mergeGroup]
  obtain ⟨hevB, hdb2⟩ := create_event_lone_merge_full db1 (some b) (some n) y nB e2
    evB1 db2 hfresh2' hempty1 hAB2
  subst hevB
  obtain ⟨hevB2, hdb1'⟩ := create_event_lone_merge_full db (some b) (some n) y nB e2
    evB2 db1' hfresh2 hempty hBA1
  subst hevB2
  have hfresh1' : ∀ e ∈ db1'.events, e.event_id ≠ e1 := by
    intro e he
    rw [hdb1'] at he
    rcases List.mem_append.mp he with hl | hr
    · exact hfresh1 e hl
    · rcases List.mem_singleton.mp hr with rfl
      exact fun h => hne h.symm
  have hempty1' : mergeGroup db1'.events (some n) y = [] := by
    rw [hdb1', mergeGroup_append, hempty, List.nil_append]
    simp [mergeGroup]
  obtain ⟨hevA2, hdb2'⟩ := create_event_lone_merge_full db1' (some a) (some n) y nA e1
    evA2 db2' hfresh1' hempty1' hBA2
  subst hevA2
  have h2 : db2.events = db.events ++
      [⟨e1, some a, some n, y, .LEGAL_TRANSFER, stripLone mergeLonePhrase nA⟩,
       ⟨e2, some b, some n, y, .LEGAL_TRANSFER, stripLone mergeLonePhrase nB⟩] := by
    rw [hdb2, hdb1, List.append_assoc]
    rfl
  have h2' : db2'.events = db.events ++
      [⟨e2, some b, some n, y, .LEGAL_TRANSFER, stripLone mergeLonePhrase nB⟩,
       ⟨e1, some a, some n, y, .LEGAL_TRANSFER, stripLone mergeLonePhrase nA⟩] := by
    rw [hdb2', hdb1', List.append_assoc]
    rfl
  refine ⟨h2, h2', ?_⟩
  rw [h2, h2']
  exact List.Perm.append_left db.events (List.Perm.swap _ _ _)

/-- C2 witness data: one merge-leg submission against node 3, with the
failure branch never taken in the concrete runs below. -/
def c2Step (db : DB) (p : Nat) (notes : Str) (eid : Nat) : LineageEvent × DB :=
  match create_event db (some p) (some 3) 2021 .MERGE (some notes) eid with
  | .ok pr => pr
  | .error _ => (⟨0, none, none, 0, .MERGE, none⟩, db)

/-- C2 witness data: leg A first. -/
def c2A1 : LineageEvent × DB := c2Step c2Db 1 "Merge part 1".data 101

/-- C2 witness data: leg B after leg A. -/
def c2B1 : LineageEvent × DB := c2Step c2A1.2 2 "Merge part 2".data 102

/-- C2 witness data: leg B first. -/
def c2B2 : LineageEvent × DB := c2Step c2Db 2 "Merge part 2".data 102

/-- C2 witness data: leg A after leg B. -/
def c2A2 : LineageEvent × DB := c2Step c2B2.2 1 "Merge part 1".data 101

/-- C2 (amended) applied at the concrete scenario: both submission
orders yield permuted stores holding the same two LEGAL_TRANSFER
records. -/
theorem C2_witness :
    c2B1.2.events = c2Db.events ++
      [⟨101, some 1, some 3, 2021, .LEGAL_TRANSFER,
        stripLone mergeLonePhrase (some "Merge part 1".data)⟩,
       ⟨102, some 2, some 3, 2021, .LEGAL_TRANSFER,
        stripLone mergeLonePhrase (some "Merge part 2".data)⟩] ∧
    c2A2.2.events = c2Db.events ++
      [⟨102, some 2, some 3, 2021, .LEGAL_TRANSFER,
        stripLone mergeLonePhrase (some "Merge part 2".data)⟩,
       ⟨101, some 1, some 3, 2021, .LEGAL_TRANSFER,
        stripLone mergeLonePhrase (some "Merge part 1".data)⟩] ∧
    c2B1.2.events.Perm c2A2.2.events :=
  C2_order_independent_amended c2Db 1 2 3 2021
    (some "Merge part 1".data) (some "Merge part 2".data) 101 102
    c2A1.1 c2B1.1 c2B2.1 c2A2.1 c2A1.2 c2B1.2 c2B2.2 c2A2.2
    (by decide) (by decide) (by decide) (by decide) rfl rfl rfl rfl

/-! ### C4: projection membership -/

/-- The deterministic sort only reorders its input. -/
theorem sortByKey_perm {α K : Type} (key : α → K) [LinearOrder K] (l : List α) :
    (sortByKey key l).Perm l :=
  List.perm_insertionSort (keyRel key) l

/-- C4 (amended): a node appears in the projected node list iff it
passes the dissolved filter — the projection never requires a node to
have an era in the requested window, so a node with zero matching eras
is still included (with an empty era list, as the counterexample
shows); and each included node's era list contains exactly its eras
satisfying the year/tier predicate. -/
theorem C4_projection_membership_amended (db : DB) (sy ey : Int) (inc : Bool)
    (tf : Option (List Int)) :
    (∀ n ∈ db.nodes, dissolvedPred inc ey n = true →
      build_node db sy ey tf n ∈ (projectGraph db sy ey inc tf).nodes) ∧
    (∀ out ∈ (projectGraph db sy ey inc tf).nodes,
      ∃ n ∈ db.nodes, dissolvedPred inc ey n = true ∧ out = build_node db sy ey tf n) ∧
    (∀ (n : TeamNode) (era : EraOut),
      era ∈ (build_node db sy ey tf n).eras ↔
      ∃ e ∈ db.eras, e.node_id = n.node_id ∧ eraPred sy ey tf e = true ∧
        era = buildEraOut db e) := by
  have hperm : ((projectGraph db sy ey inc tf).nodes).Perm
      ((db.nodes.filter (dissolvedPred inc ey)).map (build_node db sy ey tf)) := by
    show (build_nodes db sy ey tf _).Perm _
    exact sortByKey_perm nodeKey _
  refine ⟨?_, ?_, ?_⟩
  · intro n hn hdis
    exact hperm.mem_iff.mpr
      (List.mem_map.mpr ⟨n, List.mem_filter.mpr ⟨hn, hdis⟩, rfl⟩)
  · intro out hout
    obtain ⟨n, hn, rfl⟩ := List.mem_map.mp (hperm.mem_iff.mp hout)
    obtain ⟨hmem, hdis⟩ := List.mem_filter.mp hn
    exact ⟨n, hmem, hdis, rfl⟩
  · intro n era
    show era ∈ sortByKey eraKey _ ↔ _
    rw [(sortByKey_perm eraKey _).mem_iff]
    constructor
    · intro h
      obtain ⟨e, he, rfl⟩ := List.mem_map.mp h
      obtain ⟨he1, hpred⟩ := List.mem_filter.mp he
      obtain ⟨he0, hid⟩ := List.mem_filter.mp he1
      exact ⟨e, he0, by simpa using hid, hpred, rfl⟩
    · rintro ⟨e, he0, hid, hpred, rfl⟩
      exact List.mem_map.mpr ⟨e, List.mem_filter.mpr
        ⟨List.mem_filter.mpr ⟨he0, by simpa using hid⟩, hpred⟩, rfl⟩

/-- C4 (amended) applied at the concrete scenario: the era-less node of
the counterexample is a member of the projected node list because it
passes the dissolved filter. -/
theorem C4_witness :
    build_node c4Db 2000 2010 none ⟨1, 1950, none⟩ ∈
      (projectGraph c4Db 2000 2010 true none).nodes :=
  (C4_projection_membership_amended c4Db 2000 2010 true none).1
    ⟨1, 1950, none⟩ (by decide) (by decide)

/-! ### C9: projection determinism -/

/-- Two sorted lists that are permutations of each other are equal,
provided the order is antisymmetric on the elements actually present
(a local variant of the textbook sorted-permutation lemma). -/
theorem eq_of_perm_sorted_anti {α : Type} {r : α → α → Prop} :
    ∀ {l₁ l₂ : List α}, l₁.Perm l₂ →
      (∀ a ∈ l₁, ∀ b ∈ l₁, r a b → r b a → a = b) →
      l₁.Sorted r → l₂.Sorted r → l₁ = l₂
  | [], _, hp, _, _, _ => hp.nil_eq
  | a :: t₁, [], hp, _, _, _ => absurd hp.symm.nil_eq (by simp)
  | a :: t₁, b :: t₂, hp, hanti, hs₁, hs₂ => by
    have hs₁' := List.sorted_cons.mp hs₁
    have hs₂' := List.sorted_cons.mp hs₂
    have hab : a = b := by
      by_cases h : a = b
      · exact h
      · have ha2 : a ∈ b :: t₂ := hp.mem_iff.mp (List.mem_cons_self a t₁)
        have hb1 : b ∈ a :: t₁ := hp.mem_iff.mpr (List.mem_cons_self b t₂)
        have hra : r b a := by
          rcases List.mem_cons.mp ha2 with he | hm
          · exact absurd he h
          · exact hs₂'.1 a hm
        have hrb : r a b := by
          rcases List.mem_cons.mp hb1 with he | hm
          · exact absurd he.symm h
          · exact hs₁'.1 b hm
        exact hanti a (List.mem_cons_self a t₁) b hb1 hrb hra
    subst hab
    have ht := eq_of_perm_sorted_anti hp.cons_inv
      (fun x hx y hy => hanti x (List.mem_cons_of_mem a hx) y (List.mem_cons_of_mem a hy))
      hs₁'.2 hs₂'.2
    rw [ht]

/-- Sorting is invariant under permutation of the input when the sort
key separates the elements of the list. -/
theorem sortByKey_eq_of_perm {α K : Type} (key : α → K) [LinearOrder K]
    {l₁ l₂ : List α} (hp : l₁.Perm l₂)
    (hinj : ∀ a ∈ l₁, ∀ b ∈ l₁, key a = key b → a = b) :
    sortByKey key l₁ = sortByKey key l₂ :=
  eq_of_perm_sorted_anti
    ((sortByKey_perm key l₁).trans (hp.trans (sortByKey_perm key l₂).symm))
    (fun a ha b hb h1 h2 =>
      hinj a ((sortByKey_perm key l₁).mem_iff.mp ha)
        b ((sortByKey_perm key l₁).mem_iff.mp hb) (le_antisymm h1 h2))
    (List.sorted_insertionSort (keyRel key) l₁)
    (List.sorted_insertionSort (keyRel key) l₂)

/-- The keyed lookup is invariant under permutation when at most one
element can satisfy the predicate. -/
theorem find?_eq_of_perm {α : Type} {p : α → Bool} {l₁ l₂ : List α} (hp : l₁.Perm l₂)
    (huniq : ∀ a ∈ l₁, ∀ b ∈ l₁, p a = true → p b = true → a = b) :
    l₁.find? p = l₂.find? p := by
  cases h1 : l₁.find? p with
  | none =>
    rw [List.find?_eq_none] at h1
    symm
    rw [List.find?_eq_none]
    intro x hx
    exact h1 x (hp.mem_iff.mpr hx)
  | some a =>
    have hpa := List.find?_some h1
    have hma := List.mem_of_find?_eq_some h1
    cases h2 : l₂.find? p with
    | none =>
      rw [List.find?_eq_none] at h2
      exact absurd hpa (h2 a (hp.mem_iff.mp hma))
    | some b =>
      have hpb := List.find?_some h2
      have hmb := List.mem_of_find?_eq_some h2
      exact congrArg some (huniq a hma b (hp.mem_iff.mpr hmb) hpa hpb)

/-- Brand lookup is store-order independent given unique brand ids. -/
theorem findBrand_perm (db db' : DB) (hb : db.brands.Perm db'.brands)
    (hbid : (db.brands.map SponsorBrand.brand_id).Nodup) (i : Nat) :
    findBrand db i = findBrand db' i :=
  find?_eq_of_perm hb (fun a ha b hb' hpa hpb => by
    apply List.inj_on_of_nodup_map hbid ha hb'
    have h1 : a.brand_id = i := by simpa using hpa
    have h2 : b.brand_id = i := by simpa using hpb
    show a.brand_id = b.brand_id
    rw [h1, h2])

/-- The jersey composition of an era is store-order independent given
unique (era, rank) pairs and unique brand ids. -/
theorem bjc_perm (db db' : DB)
    (hl : db.sponsor_links.Perm db'.sponsor_links) (hb : db.brands.Perm db'.brands)
    (hlid : (db.sponsor_links.map fun l => (l.era_id, l.rank_order)).Nodup)
    (hbid : (db.brands.map SponsorBrand.brand_id).Nodup) (era : TeamEra) :
    build_jersey_composition db era = build_jersey_composition db' era := by
  unfold build_jersey_composition
  have hsort : sortByKey rankKey (db.sponsor_links.filter fun l => l.era_id == era.era_id) =
      sortByKey rankKey (db'.sponsor_links.filter fun l => l.era_id == era.era_id) := by
    apply sortByKey_eq_of_perm rankKey (hl.filter _)
    intro a ha b hb2 hk
    have ha' := List.mem_filter.mp ha
    have hb' := List.mem_filter.mp hb2
    apply List.inj_on_of_nodup_map hlid ha'.1 hb'.1
    have h1 : a.era_id = era.era_id := by simpa using ha'.2
    have h2 : b.era_id = era.era_id := by simpa using hb'.2
    show (a.era_id, a.rank_order) = (b.era_id, b.rank_order)
    rw [h1, h2]
    exact congrArg _ hk
  rw [hsort]
  apply List.map_congr_left
  intro l _
  rw [findBrand_perm db db' hb hbid]

/-- An era entry of the payload is store-order independent. -/
theorem buildEraOut_perm (db db' : DB)
    (hl : db.sponsor_links.Perm db'.sponsor_links) (hb : db.brands.Perm db'.brands)
    (hlid : (db.sponsor_links.map fun l => (l.era_id, l.rank_order)).Nodup)
    (hbid : (db.brands.map SponsorBrand.brand_id).Nodup) (e : TeamEra) :
    buildEraOut db e = buildEraOut db' e := by
  unfold buildEraOut
  rw [bjc_perm db db' hl hb hlid hbid]

/-- A node entry of the payload is store-order independent given the
uniqueness invariants. -/
theorem build_node_perm (db db' : DB) (sy ey : Int) (tf : Option (List Int))
    (he : db.eras.Perm db'.eras)
    (hl : db.sponsor_links.Perm db'.sponsor_links) (hb : db.brands.Perm db'.brands)
    (heid : (db.eras.map fun e => (e.node_id, e.season_year)).Nodup)
    (hlid : (db.sponsor_links.map fun l => (l.era_id, l.rank_order)).Nodup)
    (hbid : (db.brands.map SponsorBrand.brand_id).Nodup) (n : TeamNode) :
    build_node db sy ey tf n = build_node db' sy ey tf n := by
  unfold build_node
  have hmap : ∀ l : List TeamEra, l.map (buildEraOut db') = l.map (buildEraOut db) :=
    fun l => List.map_congr_left
      (fun e _ => (buildEraOut_perm db db' hl hb hlid hbid e).symm)
  congr 1
  rw [hmap]
  apply sortByKey_eq_of_perm eraKey (((he.filter _).filter _).map _)
  intro a ha b hb2 hk
  obtain ⟨ea, hea, rfl⟩ := List.mem_map.mp ha
  obtain ⟨eb, heb, rfl⟩ := List.mem_map.mp hb2
  have hy : ea.season_year = eb.season_year := congrArg (fun x => (ofLex x).1) hk
  have hea' := List.mem_filter.mp (List.mem_filter.mp hea).1
  have heb' := List.mem_filter.mp (List.mem_filter.mp heb).1
  have heq : ea = eb := by
    apply List.inj_on_of_nodup_map heid hea'.1 heb'.1
    have h1 : ea.node_id = n.node_id := by simpa using hea'.2
    have h2 : eb.node_id = n.node_id := by simpa using heb'.2
    show (ea.node_id, ea.season_year) = (eb.node_id, eb.season_year)
    rw [h1, h2, hy]
  rw [heq]

/-- The link sort key records every field of a link, so it is
injective outright. -/
theorem linkKey_inj (a b : LinkOut) (h : linkKey a = linkKey b) : a = b := by
  obtain ⟨s₁, t₁, y₁, n₁⟩ := a
  obtain ⟨s₂, t₂, y₂, n₂⟩ := b
  simp only [linkKey, toLex_inj, Prod.mk.injEq] at h
  obtain ⟨h1, h2, h3, h4⟩ := h
  rw [h1, h2, h3, h4]

/-- The link list is store-order independent. -/
theorem build_links_perm (l₁ l₂ : List LineageEvent) (hp : l₁.Perm l₂) :
    build_links l₁ = build_links l₂ := by
  unfold build_links
  apply sortByKey_eq_of_perm linkKey ((hp.filter _).map _)
  intro a ha b hb hk
  exact linkKey_inj a b hk

/-- C9: the projection is deterministic — for identical arguments
against the same data, the output and its content hash do not depend on
the order in which the backing store yields nodes, eras, sponsor links,
brands or events, given the store uniqueness invariants (unique node
ids, unique (node, season_year) era pairs, unique (era, rank_order)
sponsor-link pairs, unique brand ids): the sorts by (founding year,
id), (year, name), rank and (year, source, target, type) pin the output
byte for byte. -/
theorem C9_projection_deterministic (db db' : DB) (sy ey : Int) (inc : Bool)
    (tf : Option (List Int))
    (hn : db.nodes.Perm db'.nodes) (he : db.eras.Perm db'.eras)
    (hl : db.sponsor_links.Perm db'.sponsor_links) (hb : db.brands.Perm db'.brands)
    (hev : db.events.Perm db'.events)
    (hnid : (db.nodes.map TeamNode.node_id).Nodup)
    (heid : (db.eras.map fun e => (e.node_id, e.season_year)).Nodup)
    (hlid : (db.sponsor_links.map fun l => (l.era_id, l.rank_order)).Nodup)
    (hbid : (db.brands.map SponsorBrand.brand_id).Nodup) :
    projectGraph db sy ey inc tf = projectGraph db' sy ey inc tf ∧
    compute_etag (projectGraph db sy ey inc tf) =
      compute_etag (projectGraph db' sy ey inc tf) := by
  have hnodes : build_nodes db sy ey tf (db.nodes.filter (dissolvedPred inc ey)) =
      build_nodes db' sy ey tf (db'.nodes.filter (dissolvedPred inc ey)) := by
    unfold build_nodes
    have hmap : ∀ l : List TeamNode,
        l.map (build_node db' sy ey tf) = l.map (build_node db sy ey tf) :=
      fun l => List.map_congr_left
        (fun n _ => (build_node_perm db db' sy ey tf he hl hb heid hlid hbid n).symm)
    rw [hmap]
    apply sortByKey_eq_of_perm nodeKey ((hn.filter _).map _)
    intro a ha b hb2 hk
    obtain ⟨na, hna, rfl⟩ := List.mem_map.mp ha
    obtain ⟨nb, hnb, rfl⟩ := List.mem_map.mp hb2
    have hid : na.node_id = nb.node_id := congrArg (fun x => (ofLex x).2) hk
    have heq : na = nb := List.inj_on_of_nodup_map hnid
      (List.mem_of_mem_filter hna) (List.mem_of_mem_filter hnb) hid
    rw [heq]
  have hlinks : build_links (db.events.filter fun e =>
        decide (sy ≤ e.event_year) && decide (e.event_year ≤ ey)) =
      build_links (db'.events.filter fun e =>
        decide (sy ≤ e.event_year) && decide (e.event_year ≤ ey)) :=
    build_links_perm _ _ (hev.filter _)
  have hmain : projectGraph db sy ey inc tf = projectGraph db' sy ey inc tf := by
    show GraphData.mk
        (build_nodes db sy ey tf (db.nodes.filter (dissolvedPred inc ey)))
        (build_links (db.events.filter fun e =>
          decide (sy ≤ e.event_year) && decide (e.event_year ≤ ey)))
        (GraphMeta.mk (sy, ey)
          (build_nodes db sy ey tf (db.nodes.filter (dissolvedPred inc ey))).length
          (build_links (db.events.filter fun e =>
            decide (sy ≤ e.event_year) && decide (e.event_year ≤ ey))).length) =
      GraphData.mk
        (build_nodes db' sy ey tf (db'.nodes.filter (dissolvedPred inc ey)))
        (build_links (db'.events.filter fun e =>
          decide (sy ≤ e.event_year) && decide (e.event_year ≤ ey)))
        (GraphMeta.mk (sy, ey)
          (build_nodes db' sy ey tf (db'.nodes.filter (dissolvedPred inc ey))).length
          (build_links (db'.events.filter fun e =>
            decide (sy ≤ e.event_year) && decide (e.event_year ≤ ey))).length)
    rw [hnodes, hlinks]
  exact ⟨hmain, congrArg compute_etag hmain⟩

/-- C9 witness data: a store with two of everything. -/
def c9Db : DB :=
  ⟨[⟨1, 1990, none⟩, ⟨2, 2000, none⟩],
   [⟨10, 1, 1995, "Alpha".data, none, some 1, none, false⟩,
    ⟨11, 2, 2005, "Beta".data, none, some 2, none, false⟩],
   [⟨100, 10, 7, 1, 60⟩, ⟨101, 10, 8, 2, 30⟩],
   [⟨7, "Acme".data, "#112233".data⟩, ⟨8, "Globex".data, "#445566".data⟩],
   [⟨200, some 1, some 2, 1999, .LEGAL_TRANSFER, none⟩,
    ⟨201, some 2, none, 2006, .SPIRITUAL_SUCCESSION, none⟩],
   [], []⟩

/-- C9 witness data: the same store with every table reversed. -/
def c9Db2 : DB :=
  ⟨[⟨2, 2000, none⟩, ⟨1, 1990, none⟩],
   [⟨11, 2, 2005, "Beta".data, none, some 2, none, false⟩,
    ⟨10, 1, 1995, "Alpha".data, none, some 1, none, false⟩],
   [⟨101, 10, 8, 2, 30⟩, ⟨100, 10, 7, 1, 60⟩],
   [⟨8, "Globex".data, "#445566".data⟩, ⟨7, "Acme".data, "#112233".data⟩],
   [⟨201, some 2, none, 2006, .SPIRITUAL_SUCCESSION, none⟩,
    ⟨200, some 1, some 2, 1999, .LEGAL_TRANSFER, none⟩],
   [], []⟩

/-- C9 applied at the concrete scenario: reversing every table leaves
the projection and its content hash unchanged. -/
theorem C9_witness :
    projectGraph c9Db 1990 2010 true none = projectGraph c9Db2 1990 2010 true none ∧
    compute_etag (projectGraph c9Db 1990 2010 true none) =
      compute_etag (projectGraph c9Db2 1990 2010 true none) :=
  C9_projection_deterministic c9Db c9Db2 1990 2010 true none
    (List.Perm.swap _ _ _) (List.Perm.swap _ _ _) (List.Perm.swap _ _ _)
    (List.Perm.swap _ _ _) (List.Perm.swap _ _ _)
    (by decide) (by decide) (by decide) (by decide)
